import Mathlib

/-!
Verification of the RailwayOnline map front-end's geometric core against its
specification.  The development shallowly embeds, over exact real arithmetic:

* the RMP path calculator (`rmpPathCalculator`: perpendicular / diagonal /
  simple / straight edge-path builders with rounded corners and sampled
  quadratic beziers);
* the RMP graph-to-line parser (`rmpParser.parseRMPData`: edge grouping by
  color, DFS ordering, station extraction, transfer-flag merge pass);
* the 2D nearest-point / snapping utilities shared by the control-point and
  assist-line editing tools (`ControlPointTools.tsx`, `AssistLineTools.tsx`).

JavaScript `number` is modelled as `ℝ` (exact reals: the spec states its
numeric claims up to floating-point tolerance, and no claim under study
depends on rounding).  In this model every value is finite, so the source's
`Number.isFinite` guards are vacuously true and `NaN` does not arise;
`Math.hypot`/`Math.sqrt` are `Real.sqrt`.  JS `Map`/`Set` (insertion-ordered,
set-semantics on keys) are modelled as association lists with
replace-in-place updates, which reproduces iteration order exactly.
-/

namespace RMP

/-- 2D point in RMP diagram space (source `Point2D`). -/
structure Point2D where
  x : ℝ
  y : ℝ

/-- Game/world coordinate (source `Coordinate` from `@/types`; the parser
always emits `y = 64`). -/
structure Coordinate where
  x : ℝ
  y : ℝ
  z : ℝ

/-- Path-segment tag: source `PathSegment.type`, `'line' | 'quadratic'`. -/
inductive SegKind where
  | line
  | quadratic
deriving DecidableEq, Repr

/-- Source `PathSegment`: a tagged control-point list (2 points for `line`,
3 for `quadratic`). -/
structure PathSegment where
  type : SegKind
  points : List Coordinate

/-- Source `EdgePath`: ordered segments plus precomputed total length. -/
structure EdgePath where
  segments : List PathSegment
  length : ℝ

/-- Source `CoordTransformConfig`. -/
structure CoordTransformConfig where
  scale : ℝ
  offset : ℝ
  multiplier : ℝ

/-- Source `startFrom : 'from' | 'to'` (`from` is a Lean keyword, hence
`fromSide`/`toSide`). -/
inductive StartFrom where
  | fromSide
  | toSide
deriving DecidableEq, Repr

/-- Source `PerpendicularConfig`. -/
structure PerpendicularConfig where
  startFrom : StartFrom
  offsetFrom : ℝ
  offsetTo : ℝ
  roundCornerFactor : ℝ

/-- Source `DiagonalConfig` (field-for-field identical to
`PerpendicularConfig` in the source, declared separately there). -/
structure DiagonalConfig where
  startFrom : StartFrom
  offsetFrom : ℝ
  offsetTo : ℝ
  roundCornerFactor : ℝ

/-- Source `SimpleConfig`. -/
structure SimpleConfig where
  offset : ℝ

noncomputable section
open Classical

/-- Source `normalize`: unit vector, with the zero vector mapped to the zero
vector (`len > 0` guard avoids 0/0). -/
def normalize (v : Point2D) : Point2D :=
  let len := Real.sqrt (v.x * v.x + v.y * v.y)
  if len > 0 then ⟨v.x / len, v.y / len⟩ else ⟨0, 0⟩

/-- Source `perpendicular`: rotate 90° counterclockwise. -/
def perpendicular (v : Point2D) : Point2D := ⟨-v.y, v.x⟩

/-- Source `distance` on diagram-space points. -/
def distance (p1 p2 : Point2D) : ℝ :=
  Real.sqrt ((p2.x - p1.x) * (p2.x - p1.x) + (p2.y - p1.y) * (p2.y - p1.y))

/-- The quadratic bezier sample point the source computes inline inside
`quadraticBezierLength` (`mt*mt*p0 + 2*mt*t*p1 + t*t*p2`). -/
def quadBezPoint (p0 p1 p2 : Point2D) (t : ℝ) : Point2D :=
  ⟨(1 - t) * (1 - t) * p0.x + 2 * (1 - t) * t * p1.x + t * t * p2.x,
   (1 - t) * (1 - t) * p0.y + 2 * (1 - t) * t * p1.y + t * t * p2.y⟩

/-- Source `quadraticBezierLength`: 10-step chord sampling.  The source loop
runs `i = 1..10` with `prev` starting at `p0 = quadBezPoint … 0`; written here
as the equivalent sum of chords between consecutive samples. -/
def quadraticBezierLength (p0 p1 p2 : Point2D) : ℝ :=
  ∑ i in Finset.range 10,
    distance (quadBezPoint p0 p1 p2 ((i : ℝ) / 10))
      (quadBezPoint p0 p1 p2 (((i : ℝ) + 1) / 10))

/-- Source `toGameCoord` (rmpPathCalculator): diagram point to world
coordinate, fixed elevation `y = 64`, diagram `y` mapped to world `z`. -/
def toGameCoord (p : Point2D) (config : CoordTransformConfig) : Coordinate :=
  ⟨(p.x * config.scale + config.offset) * config.multiplier, 64,
   (p.y * config.scale + config.offset) * config.multiplier⟩

/-- Result record of source `applyRoundCorner`. -/
structure RoundCorner where
  cornerStart : Point2D
  cornerEnd : Point2D
  control : Point2D

/-- Source `applyRoundCorner`: corner-rounding with the bezier reach clamped
to half the shorter adjoining segment. -/
def applyRoundCorner (before corner after : Point2D) (factor : ℝ) : RoundCorner :=
  let v1 := normalize ⟨before.x - corner.x, before.y - corner.y⟩
  let v2 := normalize ⟨after.x - corner.x, after.y - corner.y⟩
  let dist1 := distance corner before
  let dist2 := distance corner after
  let maxFactor := min dist1 dist2 * 0.5
  let clampedFactor := min factor maxFactor
  { cornerStart := ⟨corner.x + v1.x * clampedFactor, corner.y + v1.y * clampedFactor⟩
    cornerEnd := ⟨corner.x + v2.x * clampedFactor, corner.y + v2.y * clampedFactor⟩
    control := corner }

/-- The source's `if (d > 0.001) { segments.push(seg); totalLength += len }`
pattern: the conditional contribution of one candidate segment to
(`segments`, `totalLength`). -/
def optPiece (c : Prop) [Decidable c] (seg : PathSegment) (len : ℝ) :
    List PathSegment × ℝ :=
  if c then ([seg], len) else ([], 0)

/-- Source `calculatePerpendicularPath`: offset endpoints, one L-shaped elbow
(placement from `startFrom` × dominant axis), rounded corner, segments below
0.001 diagram units dropped. -/
def calculatePerpendicularPath (fromP toP : Point2D) (config : PerpendicularConfig)
    (coordConfig : CoordTransformConfig) : EdgePath :=
  let dx := toP.x - fromP.x
  let dy := toP.y - fromP.y
  let dir := normalize ⟨dx, dy⟩
  let perpDir := perpendicular dir
  let p1 : Point2D := ⟨fromP.x + perpDir.x * config.offsetFrom,
                       fromP.y + perpDir.y * config.offsetFrom⟩
  let p2 : Point2D := ⟨toP.x + perpDir.x * config.offsetTo,
                       toP.y + perpDir.y * config.offsetTo⟩
  let isHorizontalDominant := |dx| ≥ |dy|
  let corner : Point2D :=
    if config.startFrom = StartFrom.fromSide then
      if isHorizontalDominant then ⟨p2.x, p1.y⟩ else ⟨p1.x, p2.y⟩
    else
      if isHorizontalDominant then ⟨p1.x, p2.y⟩ else ⟨p2.x, p1.y⟩
  let rc := applyRoundCorner p1 corner p2 config.roundCornerFactor
  let dist1 := distance p1 rc.cornerStart
  let piece1 := optPiece (dist1 > 0.001)
    ⟨SegKind.line, [toGameCoord p1 coordConfig, toGameCoord rc.cornerStart coordConfig]⟩
    (dist1 * coordConfig.multiplier)
  let curveLength := quadraticBezierLength rc.cornerStart rc.control rc.cornerEnd
  let piece2 := optPiece (curveLength > 0.001)
    ⟨SegKind.quadratic, [toGameCoord rc.cornerStart coordConfig,
      toGameCoord rc.control coordConfig, toGameCoord rc.cornerEnd coordConfig]⟩
    (curveLength * coordConfig.multiplier)
  let dist2 := distance rc.cornerEnd p2
  let piece3 := optPiece (dist2 > 0.001)
    ⟨SegKind.line, [toGameCoord rc.cornerEnd coordConfig, toGameCoord p2 coordConfig]⟩
    (dist2 * coordConfig.multiplier)
  { segments := piece1.1 ++ piece2.1 ++ piece3.1
    length := piece1.2 + piece2.2 + piece3.2 }

/-- `Math.sign(x) || 1` from the source's diagonal builder. -/
def signOr1 (x : ℝ) : ℝ :=
  if x > 0 then 1 else if x < 0 then -1 else 1

/-- Source `calculateDiagonalPath`: offset endpoints, a 45°-constrained
diagonal run of length `min |dx'| |dy'|` between two corners, each corner
rounded independently. -/
def calculateDiagonalPath (fromP toP : Point2D) (config : DiagonalConfig)
    (coordConfig : CoordTransformConfig) : EdgePath :=
  let dx := toP.x - fromP.x
  let dy := toP.y - fromP.y
  let dir := normalize ⟨dx, dy⟩
  let perpDir := perpendicular dir
  let p1 : Point2D := ⟨fromP.x + perpDir.x * config.offsetFrom,
                       fromP.y + perpDir.y * config.offsetFrom⟩
  let p2 : Point2D := ⟨toP.x + perpDir.x * config.offsetTo,
                       toP.y + perpDir.y * config.offsetTo⟩
  let newDx := p2.x - p1.x
  let newDy := p2.y - p1.y
  let diagonalLen := min |newDx| |newDy|
  let signX := signOr1 newDx
  let signY := signOr1 newDy
  let corners : Point2D × Point2D :=
    if config.startFrom = StartFrom.fromSide then
      let midX := p1.x + (newDx - signX * diagonalLen) / 2
      let midY := p1.y
      (⟨midX, midY⟩, ⟨midX + signX * diagonalLen, midY + signY * diagonalLen⟩)
    else
      let midX := p2.x - (newDx - signX * diagonalLen) / 2
      let midY := p2.y
      (⟨midX - signX * diagonalLen, midY - signY * diagonalLen⟩, ⟨midX, midY⟩)
  let corner1 := corners.1
  let corner2 := corners.2
  let round1 := applyRoundCorner p1 corner1 corner2 config.roundCornerFactor
  let round2 := applyRoundCorner corner1 corner2 p2 config.roundCornerFactor
  let dist1 := distance p1 round1.cornerStart
  let piece1 := optPiece (dist1 > 0.001)
    ⟨SegKind.line, [toGameCoord p1 coordConfig, toGameCoord round1.cornerStart coordConfig]⟩
    (dist1 * coordConfig.multiplier)
  let curve1Len := quadraticBezierLength round1.cornerStart round1.control round1.cornerEnd
  let piece2 := optPiece (curve1Len > 0.001)
    ⟨SegKind.quadratic, [toGameCoord round1.cornerStart coordConfig,
      toGameCoord round1.control coordConfig, toGameCoord round1.cornerEnd coordConfig]⟩
    (curve1Len * coordConfig.multiplier)
  let dist2 := distance round1.cornerEnd round2.cornerStart
  let piece3 := optPiece (dist2 > 0.001)
    ⟨SegKind.line, [toGameCoord round1.cornerEnd coordConfig,
      toGameCoord round2.cornerStart coordConfig]⟩
    (dist2 * coordConfig.multiplier)
  let curve2Len := quadraticBezierLength round2.cornerStart round2.control round2.cornerEnd
  let piece4 := optPiece (curve2Len > 0.001)
    ⟨SegKind.quadratic, [toGameCoord round2.cornerStart coordConfig,
      toGameCoord round2.control coordConfig, toGameCoord round2.cornerEnd coordConfig]⟩
    (curve2Len * coordConfig.multiplier)
  let dist3 := distance round2.cornerEnd p2
  let piece5 := optPiece (dist3 > 0.001)
    ⟨SegKind.line, [toGameCoord round2.cornerEnd coordConfig, toGameCoord p2 coordConfig]⟩
    (dist3 * coordConfig.multiplier)
  { segments := piece1.1 ++ piece2.1 ++ piece3.1 ++ piece4.1 ++ piece5.1
    length := piece1.2 + piece2.2 + piece3.2 + piece4.2 + piece5.2 }

/-- Source `calculateSimplePath`: both endpoints offset by the same scalar,
one straight segment. -/
def calculateSimplePath (fromP toP : Point2D) (config : SimpleConfig)
    (coordConfig : CoordTransformConfig) : EdgePath :=
  let dx := toP.x - fromP.x
  let dy := toP.y - fromP.y
  let dir := normalize ⟨dx, dy⟩
  let perpDir := perpendicular dir
  let p1 : Point2D := ⟨fromP.x + perpDir.x * config.offset,
                       fromP.y + perpDir.y * config.offset⟩
  let p2 : Point2D := ⟨toP.x + perpDir.x * config.offset,
                       toP.y + perpDir.y * config.offset⟩
  let length := distance p1 p2 * coordConfig.multiplier
  { segments := [⟨SegKind.line, [toGameCoord p1 coordConfig, toGameCoord p2 coordConfig]⟩]
    length := length }

/-- Source `calculateStraightPath`: straight fallback, no offset. -/
def calculateStraightPath (fromP toP : Point2D)
    (coordConfig : CoordTransformConfig) : EdgePath :=
  let length := distance fromP toP * coordConfig.multiplier
  { segments := [⟨SegKind.line, [toGameCoord fromP coordConfig, toGameCoord toP coordConfig]⟩]
    length := length }

end

/-! ### rmpParser: graph-to-line parser (source `parseRMPData` and helpers)

Unread decorative fields of the RMP attribute bags (`zIndex`, name offsets,
reconcile data, …) are omitted; only the fields the parser reads are
modelled.  JS `Map` is an insertion-ordered association list (`amSet`
replaces in place, `amGet` finds the unique entry); JS `Set` of strings is a
first-occurrence-deduplicated list (`jsSetDedup`). -/

noncomputable section
open Classical

/-- Per-type station payload: only `names` is read by the parser. -/
structure StationData where
  names : List String

/-- `bjsubway-text-line-badge` payload. -/
structure BadgeData where
  names : List String
  color : List String

/-- Source `RMPNode.attributes` (`bjsubwayInt` models key `bjsubway-int`,
`badge` models key `bjsubway-text-line-badge`, and so on). -/
structure RMPNodeAttrs where
  visible : Bool
  x : ℝ
  y : ℝ
  type : String
  bjsubwayInt : Option StationData
  bjsubwayBasic : Option StationData
  suzhourtBasic : Option StationData
  shmetroInt : Option StationData
  badge : Option BadgeData

/-- Source `RMPNode`. -/
structure RMPNode where
  key : String
  attributes : RMPNodeAttrs

/-- `single-color` style payload: only the color array is read. -/
structure SingleColorData where
  color : List String

/-- Source `RMPEdge.attributes`. -/
structure RMPEdgeAttrs where
  visible : Bool
  type : String
  singleColor : Option SingleColorData
  perpendicular : Option PerpendicularConfig
  diagonal : Option DiagonalConfig
  simple : Option SimpleConfig

/-- Source `RMPEdge`. -/
structure RMPEdge where
  key : String
  source : String
  target : String
  attributes : RMPEdgeAttrs

/-- Source `RMPData.graph`. -/
structure RMPGraph where
  nodes : List RMPNode
  edges : List RMPEdge

/-- Source `RMPData` (viewbox metadata unread by the parser, omitted). -/
structure RMPData where
  graph : RMPGraph

/-- Source `ParsedStation` (from `@/types`, fields as used by the parser). -/
structure ParsedStation where
  name : String
  coord : Coordinate
  stationCode : ℕ
  isTransfer : Bool
  lines : List String

/-- Source `ParsedLine` (fields as produced by the parser). -/
structure ParsedLine where
  bureau : String
  line : String
  lineId : String
  stations : List ParsedStation
  color : String
  edgePaths : List EdgePath

/-- JS `Map.get`: the value of the unique entry with this key. -/
def amGet {α : Type _} : List (String × α) → String → Option α
  | [], _ => none
  | kv :: rest, k => if kv.1 == k then some kv.2 else amGet rest k

/-- JS `Map.set`: replace in place if the key exists, else append. -/
def amSet {α : Type _} : List (String × α) → String → α → List (String × α)
  | [], k, v => [(k, v)]
  | kv :: rest, k, v => if kv.1 == k then (k, v) :: rest else kv :: amSet rest k v

/-- JS `new Set(array)` on strings: keep first occurrences, in order. -/
def jsSetDedup (l : List String) : List String :=
  l.foldl (fun acc x => if x ∈ acc then acc else acc ++ [x]) []

/-- The parser's `linesByColor` update: `if (!map.has(c)) map.set(c, []);
map.get(c).push(e)`. -/
def groupsAdd : List (String × List RMPEdge) → String → RMPEdge → List (String × List RMPEdge)
  | [], color, e => [(color, [e])]
  | kv :: rest, color, e =>
    if kv.1 == color then (kv.1, kv.2 ++ [e]) :: rest else kv :: groupsAdd rest color e

/-- Source `WORLD_COORD_CONFIGS` table. -/
def worldCoordConfigs (worldId : String) : Option CoordTransformConfig :=
  if worldId = "zth" then some { scale := 1, offset := 0.05, multiplier := 10 }
  else if worldId = "houtu" then some { scale := 1, offset := 0, multiplier := 4 }
  else none

/-- Source `DEFAULT_COORD_CONFIG`. -/
def DEFAULT_COORD_CONFIG : CoordTransformConfig :=
  { scale := 1, offset := 0.05, multiplier := 10 }

/-- Source `rmpToGameCoord` (rmpParser's own copy of the transform). -/
def rmpToGameCoord (x y : ℝ) (config : CoordTransformConfig) : Coordinate :=
  ⟨(x * config.scale + config.offset) * config.multiplier, 64,
   (y * config.scale + config.offset) * config.multiplier⟩

/-- The source's `attr['bjsubway-int'] || attr['bjsubway-basic'] ||
attr['suzhourt-basic'] || attr['shmetro-int']` payload chain. -/
def firstStationData (a : RMPNodeAttrs) : Option StationData :=
  ((a.bjsubwayInt.orElse fun _ => a.bjsubwayBasic).orElse
    fun _ => a.suzhourtBasic).orElse fun _ => a.shmetroInt

/-- Source `getStationName`: first name of the first present payload, `none`
when no payload is present or its name list is empty. -/
def getStationName (node : RMPNode) : Option String :=
  match firstStationData node.attributes with
  | some typeData => typeData.names.head?
  | none => none

/-- Source `isStationNode`. -/
def isStationNode (node : RMPNode) : Bool :=
  node.attributes.type == "bjsubway-int" || node.attributes.type == "bjsubway-basic" ||
    node.attributes.type == "suzhourt-basic" || node.attributes.type == "shmetro-int"

/-- Source `isTransferStation` (interchange node types). -/
def isTransferStation (node : RMPNode) : Bool :=
  node.attributes.type == "bjsubway-int" || node.attributes.type == "shmetro-int"

/-- Source `getEdgeColor`. -/
def getEdgeColor (edge : RMPEdge) : String :=
  match edge.attributes.singleColor with
  | some sc => if 3 ≤ sc.color.length then sc.color.getD 2 "#888888" else "#888888"
  | none => "#888888"

/-- Source `getLineBadges`: color ↦ badge display name. -/
def getLineBadges (nodes : List RMPNode) : List (String × String) :=
  nodes.foldl (fun badges node =>
    if node.attributes.type == "bjsubway-text-line-badge" then
      match node.attributes.badge with
      | some badgeData =>
        match badgeData.names.head? with
        | some nm =>
          let color :=
            if 3 ≤ badgeData.color.length then badgeData.color.getD 2 "#888888"
            else "#888888"
          amSet badges color nm
        | none => badges
      | none => badges
    else badges) []

/-- The parser's `nodeMap` built by `nodeMap.set(node.key, node)`. -/
def buildNodeMap (nodes : List RMPNode) : List (String × RMPNode) :=
  nodes.foldl (fun m node => amSet m node.key node) []

/-- `if (!adj.has(k)) adj.set(k, new Set())`. -/
def adjEnsure (adj : List (String × List String)) (k : String) :
    List (String × List String) :=
  if (amGet adj k).isSome then adj else adj ++ [(k, [])]

/-- `adj.get(k).add(v)` (JS `Set.add`: no-op on duplicates). -/
def adjAdd : List (String × List String) → String → String → List (String × List String)
  | [], k, v => [(k, [v])]
  | kv :: rest, k, v =>
    if kv.1 == k then (kv.1, if v ∈ kv.2 then kv.2 else kv.2 ++ [v]) :: rest
    else kv :: adjAdd rest k v

/-- Source `buildAdjacencyWithEdges`: undirected adjacency plus the
string-keyed bidirectional edge map (`"s->t"` and `"t->s"`). -/
def buildAdjacencyWithEdges (edges : List RMPEdge) :
    List (String × List String) × List (String × RMPEdge) :=
  edges.foldl (fun am e =>
    let adj := adjEnsure am.1 e.source
    let adj := adjEnsure adj e.target
    let adj := adjAdd adj e.source e.target
    let adj := adjAdd adj e.target e.source
    let em := amSet am.2 (e.source ++ "->" ++ e.target) e
    let em := amSet em (e.target ++ "->" ++ e.source) e
    (adj, em)) ([], [])

/-- State of the source's recursive `dfs` closure. -/
structure DFSState where
  visited : List String
  orderedNodes : List String
  orderedEdges : List RMPEdge

/-- The source's recursive `dfs(node, prevNode)`: mark, record node and the
edge crossed from `prevNode` (the `if (prevNode)` truthiness check skips
both the initial `null` and an empty-string key), then recurse into
unvisited neighbors in adjacency order.  `fuel` bounds the recursion depth only; every call level
marks one previously unvisited adjacency key, so with
`fuel = adj.length + 1` (as passed by `getOrderedStationsWithEdges`) the
fuel-0 branch coincides with the source's visited-check early return. -/
def dfsGo (adj : List (String × List String)) (em : List (String × RMPEdge))
    (fuel : ℕ) (st : DFSState) (node : String) (prevNode : Option String) : DFSState :=
  match fuel with
  | 0 => st
  | fuel' + 1 =>
    if node ∈ st.visited then st
    else
      let st1 : DFSState :=
        { visited := node :: st.visited
          orderedNodes := st.orderedNodes ++ [node]
          orderedEdges :=
            match prevNode with
            | some prev =>
              if prev == "" then st.orderedEdges
              else
                match amGet em (prev ++ "->" ++ node) with
                | some e => st.orderedEdges ++ [e]
                | none => st.orderedEdges
            | none => st.orderedEdges }
      ((amGet adj node).getD []).foldl
        (fun st2 nb => if nb ∈ st2.visited then st2 else dfsGo adj em fuel' st2 nb (some node))
        st1

/-- Source `getOrderedStationsWithEdges`: pick a degree-1 endpoint if one
exists (else the first edge's source) and DFS from it. -/
def getOrderedStationsWithEdges (edges : List RMPEdge) : List String × List RMPEdge :=
  match edges with
  | [] => ([], [])
  | e0 :: _ =>
    let am := buildAdjacencyWithEdges edges
    let adj := am.1
    let em := am.2
    let startNode := ((adj.find? fun kv => kv.2.length == 1).map fun kv => kv.1).getD e0.source
    let st := dfsGo adj em (adj.length + 1) ⟨[], [], []⟩ startNode none
    (st.orderedNodes, st.orderedEdges)

/-- `startFrom` flip used when an edge is traversed target-to-source. -/
def flipStartP (c : PerpendicularConfig) : PerpendicularConfig :=
  { c with startFrom := match c.startFrom with
      | StartFrom.fromSide => StartFrom.toSide
      | StartFrom.toSide => StartFrom.fromSide }

/-- `startFrom` flip for diagonal configs. -/
def flipStartD (c : DiagonalConfig) : DiagonalConfig :=
  { c with startFrom := match c.startFrom with
      | StartFrom.fromSide => StartFrom.toSide
      | StartFrom.toSide => StartFrom.fromSide }

/-- Source `calculateEdgePath` (local to `parseRMPData`): dispatch on the
edge's curve type, falling back to a straight path when the type is
unrecognized or its payload missing; `startFrom` is flipped when the edge is
traversed in reverse. -/
def calculateEdgePath (fromNode toNode : RMPNode) (edge : RMPEdge)
    (coordConfig : CoordTransformConfig) : EdgePath :=
  let fromP : Point2D := ⟨fromNode.attributes.x, fromNode.attributes.y⟩
  let toP : Point2D := ⟨toNode.attributes.x, toNode.attributes.y⟩
  let isReversed := edge.target == fromNode.key
  match edge.attributes.type == "perpendicular", edge.attributes.perpendicular,
      edge.attributes.type == "diagonal", edge.attributes.diagonal,
      edge.attributes.type == "simple", edge.attributes.simple with
  | true, some config, _, _, _, _ =>
    calculatePerpendicularPath fromP toP (if isReversed then flipStartP config else config)
      coordConfig
  | _, _, true, some config, _, _ =>
    calculateDiagonalPath fromP toP (if isReversed then flipStartD config else config)
      coordConfig
  | _, _, _, _, true, some config =>
    calculateSimplePath fromP toP config coordConfig
  | _, _, _, _, _, _ =>
    calculateStraightPath fromP toP coordConfig

/-- `线路${i}` placeholder line name. -/
def lineNamePlaceholder (i : ℕ) : String := "线路" ++ toString i

/-- One iteration of the parser's station loop: skip nodes whose name is
falsy (`if (!name) continue` — JS falsiness skips both a missing name and
the empty string), append a per-line station record (`stationCode = i + 1`
over the unfiltered station-node index), and update the global name-keyed
station map (insert a copy on first sight; on a repeat, merge the line name
in and recompute `isTransfer = lines.length > 1`). -/
def stationFoldStep (coordConfig : CoordTransformConfig) (lineName : String)
    (acc : List ParsedStation × List (String × ParsedStation))
    (entry : ℕ × (RMPNode × ℕ)) : List ParsedStation × List (String × ParsedStation) :=
  let i := entry.1
  let node := entry.2.1
  match getStationName node with
  | none => acc
  | some name =>
    if name == "" then acc
    else
    let coord := rmpToGameCoord node.attributes.x node.attributes.y coordConfig
    let station : ParsedStation :=
      { name := name, coord := coord, stationCode := i + 1
        isTransfer := isTransferStation node, lines := [lineName] }
    let m :=
      match amGet acc.2 name with
      | some existing =>
        let newLines := jsSetDedup (existing.lines ++ [lineName])
        amSet acc.2 name
          { existing with lines := newLines, isTransfer := decide (1 < newLines.length) }
      | none => amSet acc.2 name station
    (acc.1 ++ [station], m)

/-- The parser's per-station-pair edge-path assembly: concatenate the paths
of every traversal edge strictly between the two stations' original indices,
falling back to a straight segment when none contribute. -/
def buildEdgePaths (nodeMap : List (String × RMPNode)) (coordConfig : CoordTransformConfig)
    (orderedNodeKeys : List String) (orderedEdges : List RMPEdge)
    (stationNodes : List (RMPNode × ℕ)) : List EdgePath :=
  (stationNodes.zip stationNodes.tail).map fun pq =>
    let fromNode := pq.1.1
    let fromIdx := pq.1.2
    let toNode := pq.2.1
    let toIdx := pq.2.2
    let combined :=
      (List.range' fromIdx (toIdx - fromIdx)).foldl
        (fun sl edgeIdx =>
          match orderedEdges.get? edgeIdx with
          | none => sl
          | some edge =>
            match (orderedNodeKeys.get? edgeIdx).bind (amGet nodeMap),
                (orderedNodeKeys.get? (edgeIdx + 1)).bind (amGet nodeMap) with
            | some fromNodeForEdge, some toNodeForEdge =>
              let path := calculateEdgePath fromNodeForEdge toNodeForEdge edge coordConfig
              (sl.1 ++ path.segments, sl.2 + path.length)
            | _, _ => sl) (([] : List PathSegment), (0 : ℝ))
    if combined.1.length = 0 then
      calculateStraightPath ⟨fromNode.attributes.x, fromNode.attributes.y⟩
        ⟨toNode.attributes.x, toNode.attributes.y⟩ coordConfig
    else { segments := combined.1, length := combined.2 }

/-- Accumulator of the parser's main per-color loop. -/
structure BuildAcc where
  lines : List ParsedLine
  allStationsMap : List (String × ParsedStation)
  lineIndex : ℕ

/-- The parser's `stationNodesWithIndex` loop: keep station-type nodes of
the ordered traversal, each with its original (unfiltered) index. -/
def collectStationNodes (nodeMap : List (String × RMPNode)) (orderedNodeKeys : List String) :
    List (RMPNode × ℕ) :=
  orderedNodeKeys.enum.foldl
    (fun l e =>
      match amGet nodeMap e.2 with
      | some node => if isStationNode node then l ++ [(node, e.1)] else l
      | none => l) []

/-- One iteration of the parser's main loop over a color group: order the
group's nodes, keep station-type nodes with their original indices, drop the
group if fewer than 2 remain, build stations (updating the global map even
when the line is later dropped for resolving fewer than 2 named stations),
and emit the line, with `lineIndex` advancing only on emission. -/
def processGroup (nodeMap : List (String × RMPNode)) (badges : List (String × String))
    (coordConfig : CoordTransformConfig) (acc : BuildAcc)
    (group : String × List RMPEdge) : BuildAcc :=
  let color := group.1
  let colorEdges := group.2
  let ordered := getOrderedStationsWithEdges colorEdges
  let orderedNodeKeys := ordered.1
  let orderedEdges := ordered.2
  let stationNodes := collectStationNodes nodeMap orderedNodeKeys
  if stationNodes.length < 2 then acc
  else
    let lineName :=
      match amGet badges color with
      | some nm => if nm = "" then lineNamePlaceholder acc.lineIndex else nm
      | none => lineNamePlaceholder acc.lineIndex
    let lineId := "RMP-" ++ toString acc.lineIndex
    let built := stationNodes.enum.foldl (stationFoldStep coordConfig lineName)
      ([], acc.allStationsMap)
    let lineStations := built.1
    if 2 ≤ lineStations.length then
      { lines := acc.lines ++
          [{ bureau := "RMP", line := lineName, lineId := lineId
             stations := lineStations, color := color
             edgePaths := buildEdgePaths nodeMap coordConfig orderedNodeKeys orderedEdges
               stationNodes }]
        allStationsMap := built.2
        lineIndex := acc.lineIndex + 1 }
    else { acc with allStationsMap := built.2 }

/-- The parser's global second pass: copy the merged transfer flag and
line set from the global map onto every per-line station copy. -/
def finalizeLine (m : List (String × ParsedStation)) (line : ParsedLine) : ParsedLine :=
  { line with stations := line.stations.map fun st =>
      match amGet m st.name with
      | some globalStation =>
        { st with isTransfer := globalStation.isTransfer, lines := globalStation.lines }
      | none => st }

/-- Result record of source `parseRMPData`. -/
structure ParseResult where
  lines : List ParsedLine
  stations : List ParsedStation

/-- Source `parseRMPData`: group visible edges by color, build one candidate
line per color, merge station identity by name, then run the global
transfer-flag second pass. -/
def parseRMPData (data : RMPData) (worldId : String) : ParseResult :=
  let nodes := data.graph.nodes
  let edges := data.graph.edges
  let coordConfig := (worldCoordConfigs worldId).getD DEFAULT_COORD_CONFIG
  let nodeMap := buildNodeMap nodes
  let lineBadges := getLineBadges nodes
  let linesByColor := edges.foldl
    (fun m e => if e.attributes.visible then groupsAdd m (getEdgeColor e) e else m) []
  let acc := linesByColor.foldl (processGroup nodeMap lineBadges coordConfig)
    { lines := [], allStationsMap := [], lineIndex := 1 }
  { lines := acc.lines.map (finalizeLine acc.allStationsMap)
    stations := acc.allStationsMap.map fun kv => kv.2 }

end

end RMP

/-! ### MapTools: nearest-point geometry and snapping

Embeds the geometry/snapping core shared by `ControlPointTools.tsx` and
`AssistLineTools.tsx`.  The two files carry identical copies of `clamp01`
and `closestPointOnSegment`; they are embedded once.  The JS sentinel
`best = { point: null, dist: Infinity, ringIndex: -1, segIndex: -1 }` is
modelled as `Option RingHit` (`none` before any candidate, and any real
distance compares below `Infinity`), with the indices as naturals. -/

namespace MapTools

/-- Source `WorldPoint`: `(x, z)` in world space. -/
structure WorldPoint where
  x : ℝ
  z : ℝ

/-- Source `GeometryRings`: parallel lists of rings and closed flags. -/
structure GeometryRings where
  rings : List (List WorldPoint)
  closed : List Bool

noncomputable section
open Classical

/-- Shared source `clamp01`. -/
def clamp01 (n : ℝ) : ℝ :=
  if n < 0 then 0 else if n > 1 then 1 else n

/-- `Math.hypot` on two components. -/
def mathHypot (x z : ℝ) : ℝ := Real.sqrt (x * x + z * z)

/-- Result of source `closestPointOnSegment`. -/
structure SegHit where
  point : WorldPoint
  t : ℝ
  dist : ℝ

/-- Shared source `closestPointOnSegment`: clamped projection of `p` onto
segment `a`–`b`; the squared-length guard (`denom <= 1e-12`, with
`Number.isFinite(denom)` always true over ℝ) returns `a` itself at `t = 0`,
so the division never runs on a degenerate segment. -/
def closestPointOnSegment (p a b : WorldPoint) : SegHit :=
  let abx := b.x - a.x
  let abz := b.z - a.z
  let apx := p.x - a.x
  let apz := p.z - a.z
  let denom := abx * abx + abz * abz
  if denom ≤ 1e-12 then
    { point := a, t := 0, dist := mathHypot (p.x - a.x) (p.z - a.z) }
  else
    let t := clamp01 ((apx * abx + apz * abz) / denom)
    let q : WorldPoint := ⟨a.x + abx * t, a.z + abz * t⟩
    { point := q, t := t, dist := mathHypot (p.x - q.x) (p.z - q.z) }

/-- Source `samePoint` (default epsilon `1e-9` supplied at the call site). -/
def samePoint (a b : WorldPoint) (eps : ℝ) : Prop :=
  |a.x - b.x| ≤ eps ∧ |a.z - b.z| ≤ eps

/-- Source `normalizeRingsForPolygonLike`: single ring, dropping a
duplicated closing point. -/
def normalizeRingsForPolygonLike (coords : List WorldPoint) (isPolygon : Bool) :
    GeometryRings :=
  let ring :=
    if 2 ≤ coords.length ∧ samePoint (coords.headD ⟨0, 0⟩) (coords.getLast?.getD ⟨0, 0⟩) 1e-9
    then coords.dropLast else coords
  { rings := [ring], closed := [isPolygon] }

/-- One candidate of the ring scan (the source's `best`-update payload in
`ControlPointTools.closestPointOnRings`). -/
structure RingHit where
  point : WorldPoint
  dist : ℝ
  ringIndex : ℕ
  segIndex : ℕ
  t : ℝ

/-- The segments the source's nested ring loop scans, in scan order: for
ring `r` of `n ≥ 2` points, indices `i < n - 1` when open and `i < n` when
closed, each projecting `p` onto `(ring[i], ring[(i+1) % n])`.  Rings with
fewer than 2 points contribute nothing; a missing `closed` flag reads as
open (JS `undefined` is falsy). -/
def ringSegCandidates (p : WorldPoint) (geom : GeometryRings) : List RingHit :=
  (geom.rings.enum.foldl (fun acc re =>
    let r := re.1
    let ring := re.2
    let closed := geom.closed.getD r false
    if ring.length < 2 then acc
    else
      let n := ring.length
      let lastSeg := if closed then n else n - 1
      acc ++ (List.range lastSeg).map (fun i =>
        let a := ring.getD i ⟨0, 0⟩
        let b := ring.getD ((i + 1) % n) ⟨0, 0⟩
        let cand := closestPointOnSegment p a b
        ⟨cand.point, cand.dist, r, i, cand.t⟩)) [])

/-- The source's strict-`<` best-candidate fold (first minimum wins). -/
def foldBest (l : List RingHit) : Option RingHit :=
  l.foldl (fun best cand =>
    match best with
    | none => some cand
    | some b => if cand.dist < b.dist then some cand else some b) none

/-- Source `closestPointOnRings` (`ControlPointTools` variant, recording
ring/segment indices and `t`). -/
def closestPointOnRings (p : WorldPoint) (geom : GeometryRings) : Option RingHit :=
  foldBest (ringSegCandidates p geom)

/-- Source `closestPointOnRings` (`AssistLineTools` variant: same scan,
recording only point and distance). -/
def closestPointOnRingsA (p : WorldPoint) (geom : GeometryRings) :
    Option (WorldPoint × ℝ) :=
  (ringSegCandidates p geom).foldl (fun best cand =>
    match best with
    | none => some (cand.point, cand.dist)
    | some b => if cand.dist < b.2 then some (cand.point, cand.dist) else some b) none

/-- Source `SNAP_MAX_DIST` (ControlPointTools). -/
def SNAP_MAX_DIST : ℝ := 20

/-- Result of `ControlPointTools.applySnap` (the user-facing reason string
is dropped; `blocked` carries the rejection). -/
structure DrawSnapResult where
  point : Option WorldPoint
  blocked : Bool

/-- Source `applySnap`: pass-through when disabled or untargeted, block when
the nearest ring point is farther than `SNAP_MAX_DIST`, else snap to it
(`Number.isFinite(best.dist)` always holds over ℝ). -/
def applySnap (snapEnabled : Bool) (snapTarget : Option GeometryRings)
    (p : WorldPoint) : DrawSnapResult :=
  if !snapEnabled then { point := some p, blocked := false }
  else
    match snapTarget with
    | none => { point := some p, blocked := false }
    | some geom =>
      match closestPointOnRings p geom with
      | none => { point := some p, blocked := false }
      | some best =>
        if best.dist > SNAP_MAX_DIST then { point := none, blocked := true }
        else { point := some best.point, blocked := false }

/-- Source `FixedAxis`: `'x' | 'z'`. -/
inductive FixedAxis where
  | x
  | z
deriving DecidableEq

/-- Source `AssistLineTarget` (`value` is parsed from an integer input but
typed `number`; `leafletFeature` keeps only the fields the snap reads). -/
inductive AssistLineTarget where
  | fixedLine (axis : FixedAxis) (value : ℝ) (label : String)
  | leafletFeature (label : String) (geom : GeometryRings)

/-- Source `AssistLineSnapResult`. -/
structure AssistLineSnapResult where
  point : WorldPoint
  snapped : Bool
  dist : Option ℝ
  targetLabel : Option String

/-- The fixed-line distance `target.axis === 'x' ? Math.abs(p.x - value)
: Math.abs(p.z - value)` of `transformWorldPoint`. -/
def axisDist (axis : FixedAxis) (value : ℝ) (p : WorldPoint) : ℝ :=
  match axis with
  | FixedAxis.x => |p.x - value|
  | FixedAxis.z => |p.z - value|

/-- Source `AssistLineTools.transformWorldPoint`: axis-line snapping
replaces exactly the fixed axis coordinate within threshold; feature
snapping projects onto the nearest ring point within threshold; otherwise
the point passes through unchanged with `snapped = false`. -/
def transformWorldPoint (enabled : Bool) (target : Option AssistLineTarget)
    (threshold : ℝ) (p : WorldPoint) : AssistLineSnapResult :=
  if !enabled then { point := p, snapped := false, dist := none, targetLabel := none }
  else
    match target with
    | none => { point := p, snapped := false, dist := none, targetLabel := none }
    | some (AssistLineTarget.fixedLine axis value label) =>
      let d := axisDist axis value p
      if d ≤ threshold then
        let snappedPoint : WorldPoint := match axis with
          | FixedAxis.x => ⟨value, p.z⟩
          | FixedAxis.z => ⟨p.x, value⟩
        { point := snappedPoint, snapped := true, dist := some d, targetLabel := some label }
      else { point := p, snapped := false, dist := some d, targetLabel := some label }
    | some (AssistLineTarget.leafletFeature label geom) =>
      match closestPointOnRingsA p geom with
      | none => { point := p, snapped := false, dist := none, targetLabel := some label }
      | some bd =>
        if bd.2 ≤ threshold then
          { point := bd.1, snapped := true, dist := some bd.2, targetLabel := some label }
        else { point := p, snapped := false, dist := some bd.2, targetLabel := some label }

/-- The control-point "add" click handler's pure core (source `onMapClick`
in the add-mode effect of `ControlPointTools`): normalize the target layer's
coordinates to a ring, find the nearest segment, reject beyond
`SNAP_MAX_DIST`, and splice the projected point in at `segIndex + 1`
(wrap-around best on a closed ring appends at the end).  `none` means the
click is ignored and the stored coordinates stay unchanged; `some` carries
the coordinate list the handler stores.  The JS guards `segIndex < 0` and
`Number.isFinite(best.dist)` cannot fire once `best` exists, and the natural
`segIndex` makes the former vacuous. -/
def insertControlPoint (mode : String) (coords : List WorldPoint) (w : WorldPoint) :
    Option (List WorldPoint) :=
  if mode ≠ "polyline" ∧ mode ≠ "polygon" then none
  else
    let geom := normalizeRingsForPolygonLike coords (mode == "polygon")
    match closestPointOnRings w geom with
    | none => none
    | some best =>
      if best.dist > SNAP_MAX_DIST then none
      else
        let cs := geom.rings.headD []
        if cs.length < 2 then none
        else
          let n := cs.length
          let insertIndex :=
            if mode == "polygon" then (if n - 1 ≤ best.segIndex then n else best.segIndex + 1)
            else min (best.segIndex + 1) n
          some (cs.take insertIndex ++ [best.point] ++ cs.drop insertIndex)

end

end MapTools

/-! ### Specification-side measures and concrete instances

`pathWorldLength` and friends formalize the spec's "length measured in world
space over the transformed control points" for the refinement comparison of
C4; `euclidDist`/`lerpSeg` state C5's projection contract independently of
the implementation.  The concrete RMP documents below instantiate witnesses
and counterexamples. -/

namespace RMP

noncomputable section
open Classical

/-- Spec-side (claim C4): world-space 2D distance on the (x, z) channels of
game coordinates. -/
def coordDist (c1 c2 : Coordinate) : ℝ :=
  Real.sqrt ((c2.x - c1.x) * (c2.x - c1.x) + (c2.z - c1.z) * (c2.z - c1.z))

/-- Spec-side (claim C4): quadratic bezier sample over world coordinates. -/
def coordBezPoint (p0 p1 p2 : Coordinate) (t : ℝ) : Coordinate :=
  ⟨(1 - t) * (1 - t) * p0.x + 2 * (1 - t) * t * p1.x + t * t * p2.x, 64,
   (1 - t) * (1 - t) * p0.z + 2 * (1 - t) * t * p1.z + t * t * p2.z⟩

/-- Spec-side (claim C4): 10-step sampled world-space length of a quadratic
segment, the spec's fixed bezier measurement. -/
def coordQuadLen (p0 p1 p2 : Coordinate) : ℝ :=
  ∑ i in Finset.range 10,
    coordDist (coordBezPoint p0 p1 p2 ((i : ℝ) / 10))
      (coordBezPoint p0 p1 p2 (((i : ℝ) + 1) / 10))

/-- Spec-side (claim C4): world-space measured length of one path segment. -/
def segWorldLength (seg : PathSegment) : ℝ :=
  match seg.type, seg.points with
  | SegKind.line, [a, b] => coordDist a b
  | SegKind.quadratic, [a, b, c] => coordQuadLen a b c
  | _, _ => 0

/-- Spec-side (claim C4): world-space measured length of a segment list. -/
def pathWorldLength (segs : List PathSegment) : ℝ :=
  (segs.map segWorldLength).sum

/-- The transfer-flag/line-set relation of the amended claim C1. -/
def stOK (st : ParsedStation) : Prop := st.isTransfer = true ↔ 1 < st.lines.length

/-- Accumulator invariant for C1's amended claim. -/
def accOK (acc : BuildAcc) : Prop :=
  (∀ kv ∈ acc.allStationsMap, stOK kv.2) ∧
  (∀ l ∈ acc.lines, ∀ st ∈ l.stations, stOK st)

/-- Line-shape invariant of the amended claim C2. -/
def lineShapeOK (l : ParsedLine) : Prop :=
  2 ≤ l.stations.length ∧ l.edgePaths.length = l.stations.length - 1

/-- Placeholder station record for total list access in witnesses. -/
def defaultStation : ParsedStation := ⟨"", ⟨0, 0, 0⟩, 0, false, []⟩

/-- Placeholder line record for total list access in witnesses. -/
def defaultLine : ParsedLine := ⟨"", "", "", [], "", []⟩

/-- C1 counterexample input: an interchange-typed node (`bjsubway-int`)
belonging to exactly one line. -/
def c1xNodeA : RMPNode :=
  ⟨"nA", ⟨true, 0, 0, "bjsubway-int", some ⟨["甲站"]⟩, none, none, none, none⟩⟩

/-- Ordinary station node of the C1 counterexample document. -/
def c1xNodeB : RMPNode :=
  ⟨"nB", ⟨true, 10, 0, "bjsubway-basic", none, some ⟨["乙站"]⟩, none, none, none⟩⟩

/-- The single visible `simple` edge of the C1 counterexample document. -/
def c1xEdge : RMPEdge :=
  ⟨"e1", "nA", "nB", ⟨true, "simple", none, none, none, some ⟨0⟩⟩⟩

/-- C1 counterexample document: one line, two stations, the first of
interchange node type. -/
def c1xData : RMPData := ⟨⟨[c1xNodeA, c1xNodeB], [c1xEdge]⟩⟩

/-- C1 witness document, node A: a plain station shared by two lines. -/
def c1wNodeA : RMPNode :=
  ⟨"wA", ⟨true, 0, 0, "bjsubway-basic", none, some ⟨["换乘站"]⟩, none, none, none⟩⟩

/-- C1 witness document, node B. -/
def c1wNodeB : RMPNode :=
  ⟨"wB", ⟨true, 10, 0, "bjsubway-basic", none, some ⟨["乙站"]⟩, none, none, none⟩⟩

/-- C1 witness document, node C. -/
def c1wNodeC : RMPNode :=
  ⟨"wC", ⟨true, 0, 10, "bjsubway-basic", none, some ⟨["丙站"]⟩, none, none, none⟩⟩

/-- C1 witness document, red edge A–B. -/
def c1wEdge1 : RMPEdge :=
  ⟨"we1", "wA", "wB",
   ⟨true, "simple", some ⟨["", "", "#ff0000"]⟩, none, none, some ⟨0⟩⟩⟩

/-- C1 witness document, green edge A–C. -/
def c1wEdge2 : RMPEdge :=
  ⟨"we2", "wA", "wC",
   ⟨true, "simple", some ⟨["", "", "#00ff00"]⟩, none, none, some ⟨0⟩⟩⟩

/-- C1 witness document: two one-edge lines sharing station `换乘站`, all
nodes of plain (non-interchange) type. -/
def c1wData : RMPData := ⟨⟨[c1wNodeA, c1wNodeB, c1wNodeC], [c1wEdge1, c1wEdge2]⟩⟩

/-- C2 counterexample, endpoint station. -/
def c2xNodeA : RMPNode :=
  ⟨"nA", ⟨true, 0, 0, "bjsubway-basic", none, some ⟨["甲站"]⟩, none, none, none⟩⟩

/-- C2 counterexample, middle node: station-typed but with an empty name
list, so it contributes an edge-path pair but no station. -/
def c2xNodeM : RMPNode :=
  ⟨"nM", ⟨true, 10, 0, "bjsubway-basic", none, some ⟨[]⟩, none, none, none⟩⟩

/-- C2 counterexample, endpoint station. -/
def c2xNodeB : RMPNode :=
  ⟨"nB", ⟨true, 20, 0, "bjsubway-basic", none, some ⟨["乙站"]⟩, none, none, none⟩⟩

/-- C2 counterexample, edge A–M. -/
def c2xEdge1 : RMPEdge :=
  ⟨"e1", "nA", "nM", ⟨true, "simple", none, none, none, some ⟨0⟩⟩⟩

/-- C2 counterexample, edge M–B. -/
def c2xEdge2 : RMPEdge :=
  ⟨"e2", "nM", "nB", ⟨true, "simple", none, none, none, some ⟨0⟩⟩⟩

/-- C2 counterexample document: 3 station-typed nodes of which the middle
one resolves no name. -/
def c2xData : RMPData := ⟨⟨[c2xNodeA, c2xNodeM, c2xNodeB], [c2xEdge1, c2xEdge2]⟩⟩

/-- C2 witness, middle node with a name (spec §8's 3-collinear-station
scenario shape). -/
def c2wNodeM : RMPNode :=
  ⟨"nM", ⟨true, 10, 0, "bjsubway-basic", none, some ⟨["中站"]⟩, none, none, none⟩⟩

/-- C2 witness document: 3 named stations joined by two simple edges. -/
def c2wData : RMPData := ⟨⟨[c2xNodeA, c2wNodeM, c2xNodeB], [c2xEdge1, c2xEdge2]⟩⟩

end

end RMP

namespace MapTools

noncomputable section
open Classical

/-- Spec-side (claim C5): the point of segment `a`–`b` at parameter `s`. -/
def lerpSeg (a b : WorldPoint) (s : ℝ) : WorldPoint :=
  ⟨a.x + (b.x - a.x) * s, a.z + (b.z - a.z) * s⟩

/-- Spec-side (claim C5): Euclidean distance between world points. -/
def euclidDist (p q : WorldPoint) : ℝ :=
  Real.sqrt ((p.x - q.x) * (p.x - q.x) + (p.z - q.z) * (p.z - q.z))

/-- The open two-point ring `[(0,0), (10,0)]` of the spec's scenarios. -/
def demoRing : GeometryRings := ⟨[[⟨0, 0⟩, ⟨10, 0⟩]], [false]⟩

end

end MapTools

/-! ### Theorems -/

namespace RMP

/-- Generic preservation principle for `List.foldl`. -/
theorem foldl_rec {α β : Type _} (P : β → Prop) (step : β → α → β) :
    ∀ (l : List α) (b : β), P b → (∀ b' a, a ∈ l → P b' → P (step b' a)) →
      P (l.foldl step b) := by
  intro l
  induction l with
  | nil => intro b hb _; simpa using hb
  | cons a l ih =>
    intro b hb hstep
    simp only [List.foldl_cons]
    exact ih (step b a) (hstep b a (by simp) hb)
      (fun b' a' ha' hb' => hstep b' a' (by simp [ha']) hb')

/-- A successful `amGet` returns a stored value. -/
theorem amGet_mem {α : Type _} : ∀ (m : List (String × α)) (k : String) (v : α),
    amGet m k = some v → ∃ k', (k', v) ∈ m := by
  intro m
  induction m with
  | nil => intro k v h; simp [amGet] at h
  | cons kv rest ih =>
    obtain ⟨k1, v1⟩ := kv
    intro k v h
    by_cases hk : k1 == k
    · simp only [amGet, hk, if_true] at h
      injection h with h
      exact ⟨k1, by simp [h]⟩
    · simp only [amGet, hk, if_false] at h
      obtain ⟨k', hk'⟩ := ih k v h
      exact ⟨k', by simp [hk']⟩

/-- Entries of `amSet m k v` are old entries or the new pair. -/
theorem amSet_mem {α : Type _} : ∀ (m : List (String × α)) (k : String) (v : α)
    (kv' : String × α), kv' ∈ amSet m k v → kv' ∈ m ∨ kv' = (k, v) := by
  intro m
  induction m with
  | nil => intro k v kv' h; simp [amSet] at h; right; exact h
  | cons kv rest ih =>
    obtain ⟨k1, v1⟩ := kv
    intro k v kv' h
    by_cases hk : k1 == k
    · simp only [amSet, hk, if_true] at h
      rcases List.mem_cons.mp h with h1 | h1
      · right; exact h1
      · left; exact List.mem_cons_of_mem _ h1
    · simp only [amSet, hk, if_false] at h
      rcases List.mem_cons.mp h with h1 | h1
      · left; simp [h1]
      · rcases ih k v kv' h1 with h2 | h2
        · left; exact List.mem_cons_of_mem _ h2
        · right; exact h2

/-- `nodeMap` lookups return nodes of the input document. -/
theorem buildNodeMap_sound (nodes : List RMPNode) :
    ∀ k n, amGet (buildNodeMap nodes) k = some n → n ∈ nodes := by
  have h : ∀ kv ∈ buildNodeMap nodes, kv.2 ∈ nodes := by
    unfold buildNodeMap
    refine foldl_rec (fun m : List (String × RMPNode) => ∀ kv ∈ m, kv.2 ∈ nodes)
      _ nodes [] (by simp) ?_
    intro m node hnode hm kv hkv
    rcases amSet_mem m node.key node kv hkv with h1 | h1
    · exact hm kv h1
    · rw [h1]; exact hnode
  intro k n hk
  obtain ⟨k', hk'⟩ := amGet_mem _ k n hk
  exact h (k', n) hk'

/-- Total head access stays inside the list. -/
theorem headD_mem {α : Type _} (l : List α) (d : α) (h : l.length ≠ 0) :
    l.headD d ∈ l := by
  cases l with
  | nil => simp at h
  | cons a t => simp [List.headD]

/-- Evaluation helper: `Real.sqrt` at a recognized square. -/
theorem sqrt_num (a b : ℝ) (hb : 0 ≤ b) (h : b * b = a) : Real.sqrt a = b := by
  rw [← h]
  exact Real.sqrt_mul_self hb

theorem stationFoldStep_preserves (coordConfig : CoordTransformConfig) (lineName : String)
    (entry : ℕ × (RMPNode × ℕ)) (hnode : isTransferStation entry.2.1 = false)
    (acc : List ParsedStation × List (String × ParsedStation))
    (h1 : ∀ st ∈ acc.1, stOK st) (h2 : ∀ kv ∈ acc.2, stOK kv.2) :
    (∀ st ∈ (stationFoldStep coordConfig lineName acc entry).1, stOK st) ∧
    (∀ kv ∈ (stationFoldStep coordConfig lineName acc entry).2, stOK kv.2) := by
  rcases hname : getStationName entry.2.1 with _ | name
  · simp only [stationFoldStep, hname]
    exact ⟨h1, h2⟩
  · by_cases hemp : (name == "") = true
    · constructor
      · intro st hst
        simp only [stationFoldStep, hname, hemp, if_true] at hst
        exact h1 st hst
      · intro kv hkv
        simp only [stationFoldStep, hname, hemp, if_true] at hkv
        exact h2 kv hkv
    · constructor
      · intro st hst
        simp only [stationFoldStep, hname, hemp, if_false] at hst
        rcases List.mem_append.mp hst with h | h
        · exact h1 st h
        · simp only [List.mem_singleton] at h
          subst h
          simp [stOK, hnode]
      · intro kv hkv
        simp only [stationFoldStep, hname, hemp, if_false] at hkv
        rcases hget : amGet acc.2 name with _ | existing
        · rw [hget] at hkv
          rcases amSet_mem _ _ _ kv hkv with h | h
          · exact h2 kv h
          · subst h
            simp [stOK, hnode]
        · rw [hget] at hkv
          rcases amSet_mem _ _ _ kv hkv with h | h
          · exact h2 kv h
          · subst h
            simp [stOK]

theorem collectStationNodes_sound (nodes : List RMPNode) (keys : List String) :
    ∀ x ∈ collectStationNodes (buildNodeMap nodes) keys,
      x.1 ∈ nodes ∧ isStationNode x.1 = true := by
  unfold collectStationNodes
  refine foldl_rec
    (fun l : List (RMPNode × ℕ) => ∀ x ∈ l, x.1 ∈ nodes ∧ isStationNode x.1 = true)
    _ _ [] (by simp) ?_
  intro l e he hl x hx
  rcases hget : amGet (buildNodeMap nodes) e.2 with _ | node
  · simp only [hget] at hx
    exact hl x hx
  · cases hb : isStationNode node with
    | false =>
      simp only [hget, hb] at hx
      simp at hx
      exact hl x hx
    | true =>
      simp only [hget, hb] at hx
      simp at hx
      rcases hx with hx | hx
      · exact hl x hx
      · subst hx
        exact ⟨buildNodeMap_sound nodes e.2 node hget, hb⟩

theorem built_ok (coordConfig : CoordTransformConfig) (lineName : String)
    (stationNodes : List (RMPNode × ℕ))
    (hsn : ∀ x ∈ stationNodes, isTransferStation x.1 = false)
    (m0 : List (String × ParsedStation)) (hm0 : ∀ kv ∈ m0, stOK kv.2) :
    (∀ st ∈ (stationNodes.enum.foldl (stationFoldStep coordConfig lineName) ([], m0)).1,
      stOK st) ∧
    (∀ kv ∈ (stationNodes.enum.foldl (stationFoldStep coordConfig lineName) ([], m0)).2,
      stOK kv.2) := by
  refine foldl_rec
    (fun acc : List ParsedStation × List (String × ParsedStation) =>
      (∀ st ∈ acc.1, stOK st) ∧ (∀ kv ∈ acc.2, stOK kv.2))
    _ _ ([], m0) ⟨by simp, hm0⟩ ?_
  intro acc entry hentry hacc
  have hmem : entry.2 ∈ stationNodes :=
    List.getElem?_mem (List.mem_enum_iff_getElem?.mp hentry)
  exact stationFoldStep_preserves coordConfig lineName entry (hsn entry.2 hmem) acc hacc.1 hacc.2

theorem processGroup_preserves (nodes : List RMPNode)
    (H : ∀ node ∈ nodes, isTransferStation node = false)
    (badges : List (String × String)) (coordConfig : CoordTransformConfig)
    (acc : BuildAcc) (group : String × List RMPEdge) (hacc : accOK acc) :
    accOK (processGroup (buildNodeMap nodes) badges coordConfig acc group) := by
  have hsn : ∀ x ∈ collectStationNodes (buildNodeMap nodes)
      (getOrderedStationsWithEdges group.2).1, isTransferStation x.1 = false :=
    fun x hx => H x.1 (collectStationNodes_sound nodes _ x hx).1
  simp only [processGroup]
  split
  · exact hacc
  · split
    · refine ⟨?_, ?_⟩
      · exact (built_ok _ _ _ hsn _ hacc.1).2
      · intro l hl
        rcases List.mem_append.mp hl with h | h
        · exact hacc.2 l h
        · simp only [List.mem_singleton] at h
          subst h
          exact (built_ok _ _ _ hsn _ hacc.1).1
    · exact ⟨(built_ok _ _ _ hsn _ hacc.1).2, hacc.2⟩

theorem finalizeLine_stOK (m : List (String × ParsedStation)) (line : ParsedLine)
    (hm : ∀ kv ∈ m, stOK kv.2) (hl : ∀ st ∈ line.stations, stOK st) :
    ∀ st ∈ (finalizeLine m line).stations, stOK st := by
  intro st hst
  simp only [finalizeLine, List.mem_map] at hst
  obtain ⟨st0, hst0, rfl⟩ := hst
  rcases hget : amGet m st0.name with _ | g
  · simp only [hget]
    exact hl st0 hst0
  · simp only [hget]
    obtain ⟨k', hk'⟩ := amGet_mem m _ g hget
    have h := hm (k', g) hk'
    simpa [stOK] using h

/-- C1 (corrected/amended): after a full build, provided no node of the
document carries an interchange node type (`bjsubway-int`/`shmetro-int`),
every global station record and every per-line station copy satisfies
`isTransfer = (merged line-name set has more than one entry)`; in
particular a station belonging to exactly one line then has
`isTransfer = false`.  (The unamended claim fails: the code seeds the flag
from the node type, see `C1_counterexample`.) -/
theorem C1_transfer_flag_amended (data : RMPData) (worldId : String)
    (H : ∀ node ∈ data.graph.nodes, isTransferStation node = false) :
    (∀ st ∈ (parseRMPData data worldId).stations,
      (st.isTransfer = true ↔ 1 < st.lines.length)) ∧
    (∀ l ∈ (parseRMPData data worldId).lines, ∀ st ∈ l.stations,
      (st.isTransfer = true ↔ 1 < st.lines.length)) := by
  have key : ∀ (groups : List (String × List RMPEdge)),
      accOK (groups.foldl
        (processGroup (buildNodeMap data.graph.nodes) (getLineBadges data.graph.nodes)
          ((worldCoordConfigs worldId).getD DEFAULT_COORD_CONFIG))
        { lines := [], allStationsMap := [], lineIndex := 1 }) := by
    intro groups
    refine foldl_rec accOK _ groups _ ⟨by simp, by simp⟩ ?_
    intro acc g hg hacc
    exact processGroup_preserves data.graph.nodes H _ _ acc g hacc
  constructor
  · intro st hst
    simp only [parseRMPData, List.mem_map] at hst
    obtain ⟨kv, hkv, rfl⟩ := hst
    exact (key _).1 kv hkv
  · intro l hl st hst
    simp only [parseRMPData, List.mem_map] at hl
    obtain ⟨l0, hl0, rfl⟩ := hl
    exact finalizeLine_stOK _ l0 (key _).1 (fun st0 hst0 => (key _).2 l0 hl0 st0 hst0) st hst

/-- C1 counterexample: on `c1xData` the station `甲站` belongs to exactly
one line (`线路1`, the only emitted line) yet ends the build with
`isTransfer = true` — in its global record and in its per-line copy —
because its node type is `bjsubway-int`; this refutes the claim that
`isTransfer = (k > 1)` with `k = 1`. -/
theorem C1_counterexample :
    (((parseRMPData c1xData "zth").stations.map fun s => (s.name, s.isTransfer, s.lines)) =
      [("甲站", true, ["线路1"]), ("乙站", false, ["线路1"])]) ∧
    (((parseRMPData c1xData "zth").lines.map fun l =>
      l.stations.map fun s => (s.name, s.isTransfer, s.lines)) =
      [[("甲站", true, ["线路1"]), ("乙站", false, ["线路1"])]]) := by
  constructor
  · decide
  · decide

/-- C1 witness: the amended theorem applied to the concrete two-line
document `c1wData` (all plain node types), at its first global station. -/
theorem C1_transfer_flag_amended_witness :
    (∀ node ∈ c1wData.graph.nodes, isTransferStation node = false) ∧
    (((parseRMPData c1wData "zth").stations.headD defaultStation).isTransfer = true ↔
      1 < ((parseRMPData c1wData "zth").stations.headD defaultStation).lines.length) :=
  ⟨by decide,
   (C1_transfer_flag_amended c1wData "zth" (by decide)).1 _
     (headD_mem _ _ (by decide))⟩

/-- When every processed station node resolves a truthy (nonempty) name,
the station loop appends exactly one station per node. -/
theorem stationFold_length (coordConfig : CoordTransformConfig) (lineName : String) :
    ∀ (entries : List (ℕ × (RMPNode × ℕ)))
      (acc : List ParsedStation × List (String × ParsedStation)),
      (∀ e ∈ entries, (getStationName e.2.1).getD "" ≠ "") →
      (entries.foldl (stationFoldStep coordConfig lineName) acc).1.length =
        acc.1.length + entries.length := by
  intro entries
  induction entries with
  | nil => intro acc _; simp
  | cons e rest ih =>
    intro acc hall
    have he := hall e (List.mem_cons_self e rest)
    rcases hnm : getStationName e.2.1 with _ | nm
    · rw [hnm] at he
      simp at he
    · rw [hnm] at he
      simp only [Option.getD_some] at he
      have hemp : (nm == "") = false := beq_eq_false_iff_ne.mpr he
      simp only [List.foldl_cons]
      rw [ih (stationFoldStep coordConfig lineName acc e)
        (fun x hx => hall x (List.mem_cons_of_mem _ hx))]
      simp only [stationFoldStep, hnm, hemp, Bool.false_eq_true, if_false]
      simp only [List.length_append, List.length_cons, List.length_nil]
      omega

/-- `buildEdgePaths` emits one edge path per consecutive station-node pair. -/
theorem buildEdgePaths_length (nodeMap : List (String × RMPNode))
    (coordConfig : CoordTransformConfig) (keys : List String)
    (orderedEdges : List RMPEdge) (stationNodes : List (RMPNode × ℕ)) :
    (buildEdgePaths nodeMap coordConfig keys orderedEdges stationNodes).length =
      stationNodes.length - 1 := by
  unfold buildEdgePaths
  simp only [List.length_map, List.length_zip, List.length_tail]
  omega

theorem processGroup_shape (nodes : List RMPNode)
    (H2 : ∀ node ∈ nodes, isStationNode node = true → (getStationName node).getD "" ≠ "")
    (badges : List (String × String)) (coordConfig : CoordTransformConfig)
    (acc : BuildAcc) (group : String × List RMPEdge)
    (hacc : ∀ l ∈ acc.lines, lineShapeOK l) :
    ∀ l ∈ (processGroup (buildNodeMap nodes) badges coordConfig acc group).lines,
      lineShapeOK l := by
  have hnamed : ∀ e ∈ (collectStationNodes (buildNodeMap nodes)
      (getOrderedStationsWithEdges group.2).1).enum,
      (getStationName e.2.1).getD "" ≠ "" := by
    intro e he
    have hmem : e.2 ∈ collectStationNodes (buildNodeMap nodes)
        (getOrderedStationsWithEdges group.2).1 :=
      List.getElem?_mem (List.mem_enum_iff_getElem?.mp he)
    have h := collectStationNodes_sound nodes _ e.2 hmem
    exact H2 e.2.1 h.1 h.2
  simp only [processGroup]
  split
  case isTrue => exact hacc
  case isFalse hge =>
    split
    case isTrue hemit =>
      intro l hl
      rcases List.mem_append.mp hl with h | h
      · exact hacc l h
      · simp only [List.mem_singleton] at h
        subst h
        constructor
        · exact hemit
        · simp only
          rw [buildEdgePaths_length,
            stationFold_length coordConfig _ _ ([], acc.allStationsMap) hnamed]
          simp
    case isFalse => exact hacc

/-- The global second pass changes no list lengths. -/
theorem finalizeLine_shape (m : List (String × ParsedStation)) (line : ParsedLine)
    (h : lineShapeOK line) : lineShapeOK (finalizeLine m line) := by
  simpa [lineShapeOK, finalizeLine] using h

/-- C2 (corrected/amended): every line emitted by `parseRMPData` has at
least 2 stations, and — provided every station-type node of the document
resolves a truthy name (`getStationName` yields a nonempty string, the JS
truthiness the station loop tests) — exactly
`edgePaths.length = stations.length - 1`; color groups resolving fewer than
2 stations produce no line (subsumed by the `2 ≤` bound).  (Unamended, the
alignment fails: edge paths are counted over station-TYPE nodes while
`stations` keeps only truthy-named ones, see `C2_counterexample`.) -/
theorem C2_line_shape_amended (data : RMPData) (worldId : String)
    (H2 : ∀ node ∈ data.graph.nodes, isStationNode node = true →
      (getStationName node).getD "" ≠ "") :
    ∀ l ∈ (parseRMPData data worldId).lines,
      2 ≤ l.stations.length ∧ l.edgePaths.length = l.stations.length - 1 := by
  have key : ∀ (groups : List (String × List RMPEdge)),
      ∀ l ∈ (groups.foldl
        (processGroup (buildNodeMap data.graph.nodes) (getLineBadges data.graph.nodes)
          ((worldCoordConfigs worldId).getD DEFAULT_COORD_CONFIG))
        { lines := [], allStationsMap := [], lineIndex := 1 }).lines, lineShapeOK l := by
    intro groups
    refine foldl_rec (fun acc : BuildAcc => ∀ l ∈ acc.lines, lineShapeOK l)
      _ groups _ (by simp) ?_
    intro acc g hg hacc
    exact processGroup_shape data.graph.nodes H2 _ _ acc g hacc
  intro l hl
  simp only [parseRMPData, List.mem_map] at hl
  obtain ⟨l0, hl0, rfl⟩ := hl
  exact finalizeLine_shape _ l0 (key _ l0 hl0)

/-- C2 counterexample: on `c2xData` (a station-typed middle node with an
empty name list) the single emitted line has 2 stations but 2 edge paths,
refuting `edgePaths.length = stations.length - 1`. -/
theorem C2_counterexample :
    ((parseRMPData c2xData "zth").lines.map fun l =>
      (l.stations.length, l.edgePaths.length)) = [(2, 2)] := by
  decide

/-- C2 witness: the amended theorem applied to `c2wData` (3 truthy-named
stations, 2 simple edges), at its emitted line. -/
theorem C2_line_shape_amended_witness :
    (∀ node ∈ c2wData.graph.nodes, isStationNode node = true →
      (getStationName node).getD "" ≠ "") ∧
    (2 ≤ ((parseRMPData c2wData "zth").lines.headD defaultLine).stations.length ∧
      ((parseRMPData c2wData "zth").lines.headD defaultLine).edgePaths.length =
        ((parseRMPData c2wData "zth").lines.headD defaultLine).stations.length - 1) :=
  ⟨by decide,
   C2_line_shape_amended c2wData "zth" (by decide) _ (headD_mem _ _ (by decide))⟩

end RMP

namespace RMP

/-- C3: the coordinate transform maps `(x, y)` to
`worldX = (x*scale + offset) * multiplier`,
`worldZ = (y*scale + offset) * multiplier` (diagram `y` to world `z`,
elevation the constant 64), exactly — and the parser's copy
(`rmpToGameCoord`) and the path calculator's copy (`toGameCoord`) agree. -/
theorem C3_coord_transform (x y : ℝ) (config : CoordTransformConfig) :
    (rmpToGameCoord x y config).x = (x * config.scale + config.offset) * config.multiplier ∧
    (rmpToGameCoord x y config).z = (y * config.scale + config.offset) * config.multiplier ∧
    (rmpToGameCoord x y config).y = 64 ∧
    toGameCoord ⟨x, y⟩ config = rmpToGameCoord x y config :=
  ⟨rfl, rfl, rfl, rfl⟩

/-- The zero-length guard in `normalize`. -/
theorem normalize_zero : normalize ⟨0, 0⟩ = ⟨0, 0⟩ := by
  simp [normalize]

/-- `distance` of a point to itself. -/
theorem distance_self (p : Point2D) : distance p p = 0 := by
  simp [distance]

/-- A constant quadratic bezier stays at its control point. -/
theorem quadBezPoint_const (p : Point2D) (t : ℝ) : quadBezPoint p p p t = p := by
  simp only [quadBezPoint]
  have hx : (1 - t) * (1 - t) * p.x + 2 * (1 - t) * t * p.x + t * t * p.x = p.x := by ring
  have hy : (1 - t) * (1 - t) * p.y + 2 * (1 - t) * t * p.y + t * t * p.y = p.y := by ring
  rw [hx, hy]

/-- Sampled length of a constant bezier. -/
theorem quadraticBezierLength_const (p : Point2D) : quadraticBezierLength p p p = 0 := by
  simp [quadraticBezierLength, quadBezPoint_const, distance_self]

/-- Corner rounding at a fully degenerate corner. -/
theorem applyRoundCorner_self (p : Point2D) (factor : ℝ) :
    applyRoundCorner p p p factor = ⟨p, p, p⟩ := by
  simp [applyRoundCorner, normalize_zero]

theorem calculateSimplePath_self (p : Point2D) (cfg : SimpleConfig)
    (coordConfig : CoordTransformConfig) :
    calculateSimplePath p p cfg coordConfig =
      { segments := [⟨SegKind.line, [toGameCoord p coordConfig, toGameCoord p coordConfig]⟩],
        length := 0 } := by
  simp [calculateSimplePath, normalize_zero, perpendicular, distance_self]

theorem calculateStraightPath_self (p : Point2D) (coordConfig : CoordTransformConfig) :
    calculateStraightPath p p coordConfig =
      { segments := [⟨SegKind.line, [toGameCoord p coordConfig, toGameCoord p coordConfig]⟩],
        length := 0 } := by
  simp [calculateStraightPath, distance_self]

theorem calculatePerpendicularPath_self (p : Point2D) (cfg : PerpendicularConfig)
    (coordConfig : CoordTransformConfig) :
    calculatePerpendicularPath p p cfg coordConfig = { segments := [], length := 0 } := by
  have h1 : ¬ ((0 : ℝ) > 0.001) := by norm_num
  simp [calculatePerpendicularPath, normalize_zero, perpendicular, distance_self,
    applyRoundCorner_self, quadraticBezierLength_const, optPiece, h1]

theorem calculateDiagonalPath_self (p : Point2D) (cfg : DiagonalConfig)
    (coordConfig : CoordTransformConfig) :
    calculateDiagonalPath p p cfg coordConfig = { segments := [], length := 0 } := by
  have h1 : ¬ ((0 : ℝ) > 0.001) := by norm_num
  simp [calculateDiagonalPath, normalize_zero, perpendicular, distance_self,
    applyRoundCorner_self, quadraticBezierLength_const, optPiece, h1, signOr1]

/-- C10: with coincident endpoints every path builder returns well-defined
finite output — `normalize` maps the zero vector to the zero vector instead
of dividing by zero, the perpendicular offset degenerates to no offset, so
`calculateSimplePath` (and the straight fallback) return a single
point-to-itself segment of length 0, and the elbow builders return an empty
segment list of length 0; no expression is left undefined (the real-number
model has no NaN, and the guarded division is never reached). -/
theorem C10_degenerate_endpoints :
    normalize ⟨0, 0⟩ = ⟨0, 0⟩ ∧
    (∀ (p : Point2D) (cfg : SimpleConfig) (coordConfig : CoordTransformConfig),
      calculateSimplePath p p cfg coordConfig =
        { segments := [⟨SegKind.line, [toGameCoord p coordConfig, toGameCoord p coordConfig]⟩],
          length := 0 }) ∧
    (∀ (p : Point2D) (coordConfig : CoordTransformConfig),
      calculateStraightPath p p coordConfig =
        { segments := [⟨SegKind.line, [toGameCoord p coordConfig, toGameCoord p coordConfig]⟩],
          length := 0 }) ∧
    (∀ (p : Point2D) (cfg : PerpendicularConfig) (coordConfig : CoordTransformConfig),
      calculatePerpendicularPath p p cfg coordConfig = { segments := [], length := 0 }) ∧
    (∀ (p : Point2D) (cfg : DiagonalConfig) (coordConfig : CoordTransformConfig),
      calculateDiagonalPath p p cfg coordConfig = { segments := [], length := 0 }) :=
  ⟨normalize_zero, calculateSimplePath_self, calculateStraightPath_self,
   calculatePerpendicularPath_self, calculateDiagonalPath_self⟩

end RMP

namespace MapTools

/-- C8: axis-line snapping computes `d = |p[axis] - value|`; within the
threshold it returns `p` with exactly the fixed axis coordinate replaced by
`value` (the other coordinate untouched) and `snapped = true`; beyond the
threshold it returns `p` unchanged with `snapped = false`, reporting `d`
either way. -/
theorem C8_axis_snap (axis : FixedAxis) (value threshold : ℝ) (label : String)
    (p : WorldPoint) :
    (axisDist axis value p ≤ threshold →
      transformWorldPoint true (some (AssistLineTarget.fixedLine axis value label))
        threshold p =
        { point := match axis with
            | FixedAxis.x => ⟨value, p.z⟩
            | FixedAxis.z => ⟨p.x, value⟩
          snapped := true, dist := some (axisDist axis value p),
          targetLabel := some label }) ∧
    (threshold < axisDist axis value p →
      transformWorldPoint true (some (AssistLineTarget.fixedLine axis value label))
        threshold p =
        { point := p, snapped := false, dist := some (axisDist axis value p),
          targetLabel := some label }) := by
  constructor
  · intro hle
    simp [transformWorldPoint, hle]
  · intro hgt
    simp [transformWorldPoint, not_le.mpr hgt]

/-- C8 witness: the spec scenario — axis `x`, value 100, threshold 20,
query (110, 50) — snaps to (100, 50) with distance 10, accepted. -/
theorem C8_axis_snap_witness :
    axisDist FixedAxis.x 100 ⟨110, 50⟩ = 10 ∧ ((10 : ℝ) ≤ 20) ∧
    transformWorldPoint true (some (AssistLineTarget.fixedLine FixedAxis.x 100 "固定直线"))
      20 ⟨110, 50⟩ =
      { point := ⟨100, 50⟩, snapped := true, dist := some 10,
        targetLabel := some "固定直线" } := by
  have h10 : axisDist FixedAxis.x 100 (⟨110, 50⟩ : WorldPoint) = 10 := by
    simp [axisDist]
    norm_num
  refine ⟨h10, by norm_num, ?_⟩
  have h := (C8_axis_snap FixedAxis.x 100 20 "固定直线" ⟨110, 50⟩).1 (by rw [h10]; norm_num)
  rw [h10] at h
  simpa using h

end MapTools

namespace RMP

theorem toGameCoord_coordDist (cfg : CoordTransformConfig) (h1 : cfg.scale = 1)
    (h2 : 0 ≤ cfg.multiplier) (a b : Point2D) :
    coordDist (toGameCoord a cfg) (toGameCoord b cfg) = cfg.multiplier * distance a b := by
  simp only [coordDist, toGameCoord, distance, h1]
  have key : ((b.x * 1 + cfg.offset) * cfg.multiplier - (a.x * 1 + cfg.offset) * cfg.multiplier) *
        ((b.x * 1 + cfg.offset) * cfg.multiplier - (a.x * 1 + cfg.offset) * cfg.multiplier) +
        ((b.y * 1 + cfg.offset) * cfg.multiplier - (a.y * 1 + cfg.offset) * cfg.multiplier) *
        ((b.y * 1 + cfg.offset) * cfg.multiplier - (a.y * 1 + cfg.offset) * cfg.multiplier) =
      cfg.multiplier ^ 2 * ((b.x - a.x) * (b.x - a.x) + (b.y - a.y) * (b.y - a.y)) := by
    ring
  rw [key, Real.sqrt_mul (sq_nonneg _), Real.sqrt_sq h2]

theorem coordBezPoint_toGame (cfg : CoordTransformConfig) (h1 : cfg.scale = 1)
    (p0 p1 p2 : Point2D) (t : ℝ) :
    coordBezPoint (toGameCoord p0 cfg) (toGameCoord p1 cfg) (toGameCoord p2 cfg) t =
      toGameCoord (quadBezPoint p0 p1 p2 t) cfg := by
  simp only [coordBezPoint, toGameCoord, quadBezPoint, h1, Coordinate.mk.injEq]
  refine ⟨by ring, trivial, by ring⟩

theorem coordQuadLen_toGame (cfg : CoordTransformConfig) (h1 : cfg.scale = 1)
    (h2 : 0 ≤ cfg.multiplier) (p0 p1 p2 : Point2D) :
    coordQuadLen (toGameCoord p0 cfg) (toGameCoord p1 cfg) (toGameCoord p2 cfg) =
      cfg.multiplier * quadraticBezierLength p0 p1 p2 := by
  unfold coordQuadLen quadraticBezierLength
  rw [Finset.mul_sum]
  refine Finset.sum_congr rfl ?_
  intro i hi
  rw [coordBezPoint_toGame cfg h1, coordBezPoint_toGame cfg h1,
    toGameCoord_coordDist cfg h1 h2]

theorem pathWorldLength_append (a b : List PathSegment) :
    pathWorldLength (a ++ b) = pathWorldLength a + pathWorldLength b := by
  simp [pathWorldLength]

theorem pathWorldLength_optPiece (c : Prop) [Decidable c] (seg : PathSegment) (len : ℝ)
    (h : segWorldLength seg = len) :
    pathWorldLength (optPiece c seg len).1 = (optPiece c seg len).2 := by
  unfold optPiece
  split
  · simp [pathWorldLength, h]
  · simp [pathWorldLength]

theorem pwl_line_piece (cfg : CoordTransformConfig) (h1 : cfg.scale = 1)
    (h2 : 0 ≤ cfg.multiplier) (a b : Point2D) (c : Prop) [Decidable c] :
    pathWorldLength (optPiece c ⟨SegKind.line, [toGameCoord a cfg, toGameCoord b cfg]⟩
      (distance a b * cfg.multiplier)).1 =
      (optPiece c ⟨SegKind.line, [toGameCoord a cfg, toGameCoord b cfg]⟩
        (distance a b * cfg.multiplier)).2 := by
  refine pathWorldLength_optPiece _ _ _ ?_
  have hs : segWorldLength ⟨SegKind.line, [toGameCoord a cfg, toGameCoord b cfg]⟩ =
      coordDist (toGameCoord a cfg) (toGameCoord b cfg) := rfl
  rw [hs, toGameCoord_coordDist cfg h1 h2]
  ring

theorem pwl_quad_piece (cfg : CoordTransformConfig) (h1 : cfg.scale = 1)
    (h2 : 0 ≤ cfg.multiplier) (a b d : Point2D) (c : Prop) [Decidable c] :
    pathWorldLength (optPiece c ⟨SegKind.quadratic,
      [toGameCoord a cfg, toGameCoord b cfg, toGameCoord d cfg]⟩
      (quadraticBezierLength a b d * cfg.multiplier)).1 =
      (optPiece c ⟨SegKind.quadratic,
        [toGameCoord a cfg, toGameCoord b cfg, toGameCoord d cfg]⟩
        (quadraticBezierLength a b d * cfg.multiplier)).2 := by
  refine pathWorldLength_optPiece _ _ _ ?_
  have hs : segWorldLength ⟨SegKind.quadratic,
      [toGameCoord a cfg, toGameCoord b cfg, toGameCoord d cfg]⟩ =
      coordQuadLen (toGameCoord a cfg) (toGameCoord b cfg) (toGameCoord d cfg) := rfl
  rw [hs, coordQuadLen_toGame cfg h1 h2]
  ring

theorem calculateSimplePath_worldLength (fromP toP : Point2D) (sc : SimpleConfig)
    (cfg : CoordTransformConfig) (h1 : cfg.scale = 1) (h2 : 0 ≤ cfg.multiplier) :
    (calculateSimplePath fromP toP sc cfg).length =
      pathWorldLength (calculateSimplePath fromP toP sc cfg).segments := by
  simp only [calculateSimplePath, pathWorldLength, List.map_cons, List.map_nil,
    List.sum_cons, List.sum_nil]
  have hs : segWorldLength ⟨SegKind.line,
      [toGameCoord ⟨fromP.x + (perpendicular (normalize ⟨toP.x - fromP.x, toP.y - fromP.y⟩)).x * sc.offset,
        fromP.y + (perpendicular (normalize ⟨toP.x - fromP.x, toP.y - fromP.y⟩)).y * sc.offset⟩ cfg,
       toGameCoord ⟨toP.x + (perpendicular (normalize ⟨toP.x - fromP.x, toP.y - fromP.y⟩)).x * sc.offset,
        toP.y + (perpendicular (normalize ⟨toP.x - fromP.x, toP.y - fromP.y⟩)).y * sc.offset⟩ cfg]⟩ =
      coordDist _ _ := rfl
  rw [hs, toGameCoord_coordDist cfg h1 h2]
  ring

end RMP

namespace RMP

theorem calculateStraightPath_worldLength (fromP toP : Point2D)
    (cfg : CoordTransformConfig) (h1 : cfg.scale = 1) (h2 : 0 ≤ cfg.multiplier) :
    (calculateStraightPath fromP toP cfg).length =
      pathWorldLength (calculateStraightPath fromP toP cfg).segments := by
  simp only [calculateStraightPath, pathWorldLength, List.map_cons, List.map_nil,
    List.sum_cons, List.sum_nil]
  have hs : segWorldLength ⟨SegKind.line, [toGameCoord fromP cfg, toGameCoord toP cfg]⟩ =
      coordDist (toGameCoord fromP cfg) (toGameCoord toP cfg) := rfl
  rw [hs, toGameCoord_coordDist cfg h1 h2]
  ring

theorem calculatePerpendicularPath_worldLength (fromP toP : Point2D)
    (pc : PerpendicularConfig) (cfg : CoordTransformConfig)
    (h1 : cfg.scale = 1) (h2 : 0 ≤ cfg.multiplier) :
    (calculatePerpendicularPath fromP toP pc cfg).length =
      pathWorldLength (calculatePerpendicularPath fromP toP pc cfg).segments := by
  simp only [calculatePerpendicularPath]
  rw [pathWorldLength_append, pathWorldLength_append,
    pwl_line_piece cfg h1 h2, pwl_quad_piece cfg h1 h2, pwl_line_piece cfg h1 h2]

theorem calculateDiagonalPath_worldLength (fromP toP : Point2D)
    (dc : DiagonalConfig) (cfg : CoordTransformConfig)
    (h1 : cfg.scale = 1) (h2 : 0 ≤ cfg.multiplier) :
    (calculateDiagonalPath fromP toP dc cfg).length =
      pathWorldLength (calculateDiagonalPath fromP toP dc cfg).segments := by
  simp only [calculateDiagonalPath]
  rw [pathWorldLength_append, pathWorldLength_append, pathWorldLength_append,
    pathWorldLength_append,
    pwl_line_piece cfg h1 h2, pwl_quad_piece cfg h1 h2, pwl_line_piece cfg h1 h2,
    pwl_quad_piece cfg h1 h2, pwl_line_piece cfg h1 h2]

end RMP

namespace RMP

/-- C4 (corrected/amended): for every path builder and endpoints, the
returned `EdgePath.length` equals the world-space measured length of its
segments (straight chords, 10-step sampled beziers, over the transformed
control points) PROVIDED the transform has `scale = 1` (true of every
shipped config and the default) and a nonnegative multiplier.  For general
configs the claim fails: the code scales diagram lengths by `multiplier`
only, ignoring `scale` (see `C4_counterexample`). -/
theorem C4_length_amended (fromP toP : Point2D) (pc : PerpendicularConfig)
    (dc : DiagonalConfig) (sc : SimpleConfig) (cfg : CoordTransformConfig)
    (h1 : cfg.scale = 1) (h2 : 0 ≤ cfg.multiplier) :
    ((calculatePerpendicularPath fromP toP pc cfg).length =
      pathWorldLength (calculatePerpendicularPath fromP toP pc cfg).segments) ∧
    ((calculateDiagonalPath fromP toP dc cfg).length =
      pathWorldLength (calculateDiagonalPath fromP toP dc cfg).segments) ∧
    ((calculateSimplePath fromP toP sc cfg).length =
      pathWorldLength (calculateSimplePath fromP toP sc cfg).segments) ∧
    ((calculateStraightPath fromP toP cfg).length =
      pathWorldLength (calculateStraightPath fromP toP cfg).segments) :=
  ⟨calculatePerpendicularPath_worldLength fromP toP pc cfg h1 h2,
   calculateDiagonalPath_worldLength fromP toP dc cfg h1 h2,
   calculateSimplePath_worldLength fromP toP sc cfg h1 h2,
   calculateStraightPath_worldLength fromP toP cfg h1 h2⟩

/-- C4 counterexample: under `scale = 2, offset = 0, multiplier = 1` the
simple path from (0,0) to (1,0) reports length 1 while its single world
segment measures 2, refuting the claim for arbitrary configs. -/
theorem C4_counterexample :
    (calculateSimplePath ⟨0, 0⟩ ⟨1, 0⟩ ⟨0⟩ ⟨2, 0, 1⟩).length = 1 ∧
    pathWorldLength (calculateSimplePath ⟨0, 0⟩ ⟨1, 0⟩ ⟨0⟩ ⟨2, 0, 1⟩).segments = 2 := by
  constructor
  · simp only [calculateSimplePath, distance]
    norm_num
  · simp only [calculateSimplePath, pathWorldLength, List.map_cons, List.map_nil,
      List.sum_cons, List.sum_nil]
    have hs : ∀ a b : Coordinate, segWorldLength ⟨SegKind.line, [a, b]⟩ = coordDist a b :=
      fun a b => rfl
    rw [hs]
    simp only [toGameCoord, coordDist]
    norm_num
    exact sqrt_num 4 2 (by norm_num) (by norm_num)

/-- C4 witness: the amended theorem at concrete endpoints (0,0)–(1,0) and
the identity-scale config. -/
theorem C4_length_amended_witness :
    (⟨1, 0, 1⟩ : CoordTransformConfig).scale = 1 ∧
    (0 : ℝ) ≤ (⟨1, 0, 1⟩ : CoordTransformConfig).multiplier ∧
    ((calculatePerpendicularPath ⟨0, 0⟩ ⟨1, 0⟩ ⟨StartFrom.fromSide, 0, 0, 0⟩ ⟨1, 0, 1⟩).length =
      pathWorldLength (calculatePerpendicularPath ⟨0, 0⟩ ⟨1, 0⟩
        ⟨StartFrom.fromSide, 0, 0, 0⟩ ⟨1, 0, 1⟩).segments) ∧
    ((calculateDiagonalPath ⟨0, 0⟩ ⟨1, 0⟩ ⟨StartFrom.fromSide, 0, 0, 0⟩ ⟨1, 0, 1⟩).length =
      pathWorldLength (calculateDiagonalPath ⟨0, 0⟩ ⟨1, 0⟩
        ⟨StartFrom.fromSide, 0, 0, 0⟩ ⟨1, 0, 1⟩).segments) ∧
    ((calculateSimplePath ⟨0, 0⟩ ⟨1, 0⟩ ⟨0⟩ ⟨1, 0, 1⟩).length =
      pathWorldLength (calculateSimplePath ⟨0, 0⟩ ⟨1, 0⟩ ⟨0⟩ ⟨1, 0, 1⟩).segments) ∧
    ((calculateStraightPath ⟨0, 0⟩ ⟨1, 0⟩ ⟨1, 0, 1⟩).length =
      pathWorldLength (calculateStraightPath ⟨0, 0⟩ ⟨1, 0⟩ ⟨1, 0, 1⟩).segments) := by
  have h := C4_length_amended ⟨0, 0⟩ ⟨1, 0⟩ ⟨StartFrom.fromSide, 0, 0, 0⟩
    ⟨StartFrom.fromSide, 0, 0, 0⟩ ⟨0⟩ ⟨1, 0, 1⟩ rfl (by norm_num)
  exact ⟨rfl, by norm_num, h.1, h.2.1, h.2.2.1, h.2.2.2⟩

end RMP

namespace MapTools

theorem clamp01_mem (n : ℝ) : clamp01 n ∈ Set.Icc (0 : ℝ) 1 := by
  unfold clamp01
  split_ifs with h1 h2
  · exact Set.mem_Icc.mpr ⟨le_refl 0, by norm_num⟩
  · exact Set.mem_Icc.mpr ⟨by norm_num, le_refl 1⟩
  · exact Set.mem_Icc.mpr ⟨not_lt.mp h1, not_lt.mp h2⟩

theorem euclid_lerp (p a b : WorldPoint) (s : ℝ) :
    euclidDist p (lerpSeg a b s) =
      Real.sqrt (((b.x - a.x) * (b.x - a.x) + (b.z - a.z) * (b.z - a.z)) * s ^ 2 -
        2 * ((p.x - a.x) * (b.x - a.x) + (p.z - a.z) * (b.z - a.z)) * s +
        ((p.x - a.x) * (p.x - a.x) + (p.z - a.z) * (p.z - a.z))) := by
  unfold euclidDist lerpSeg
  congr 1
  ring

theorem quad_clamp_min (D dot K : ℝ) (hD : 0 < D) (s : ℝ) (hs0 : 0 ≤ s) (hs1 : s ≤ 1) :
    D * clamp01 (dot / D) ^ 2 - 2 * dot * clamp01 (dot / D) + K ≤
      D * s ^ 2 - 2 * dot * s + K := by
  unfold clamp01
  split_ifs with h1 h2
  · have hdot : dot < 0 := by
      by_contra hc
      push_neg at hc
      exact absurd (div_nonneg hc hD.le) (not_le.mpr h1)
    nlinarith [mul_nonneg (mul_nonneg hD.le hs0) hs0,
      mul_nonneg hs0 (neg_nonneg.mpr hdot.le)]
  · have hdot : D < dot := (one_lt_div hD).mp h2
    have hfact : (0 : ℝ) ≤ 2 * dot - D * (s + 1) := by nlinarith [mul_le_mul_of_nonneg_left hs1 hD.le]
    nlinarith [mul_nonneg (sub_nonneg.mpr hs1) hfact]
  · have hdt : D * (dot / D) = dot := by
      field_simp
    nlinarith [mul_nonneg hD.le (sq_nonneg (s - dot / D)), hdt]

end MapTools

namespace MapTools

theorem C5_closest_point_on_segment (p a b : WorldPoint) :
    ((b.x - a.x) * (b.x - a.x) + (b.z - a.z) * (b.z - a.z) ≤ 1e-12 →
      (closestPointOnSegment p a b).point = a ∧
      (closestPointOnSegment p a b).t = 0 ∧
      (closestPointOnSegment p a b).dist = euclidDist p a) ∧
    (1e-12 < (b.x - a.x) * (b.x - a.x) + (b.z - a.z) * (b.z - a.z) →
      (closestPointOnSegment p a b).t ∈ Set.Icc (0 : ℝ) 1 ∧
      (closestPointOnSegment p a b).point =
        lerpSeg a b (closestPointOnSegment p a b).t ∧
      (closestPointOnSegment p a b).dist =
        euclidDist p (closestPointOnSegment p a b).point ∧
      ∀ s ∈ Set.Icc (0 : ℝ) 1,
        (closestPointOnSegment p a b).dist ≤ euclidDist p (lerpSeg a b s)) := by
  constructor
  · intro hle
    simp only [closestPointOnSegment, if_pos hle]
    exact ⟨trivial, trivial, rfl⟩
  · intro hgt
    have hD : 0 < (b.x - a.x) * (b.x - a.x) + (b.z - a.z) * (b.z - a.z) :=
      lt_trans (by norm_num) hgt
    simp only [closestPointOnSegment, if_neg (not_le.mpr hgt)]
    refine ⟨clamp01_mem _, rfl, rfl, ?_⟩
    intro s hs
    rw [euclid_lerp]
    have hdist : mathHypot
        (p.x - (a.x + (b.x - a.x) *
          clamp01 (((p.x - a.x) * (b.x - a.x) + (p.z - a.z) * (b.z - a.z)) /
            ((b.x - a.x) * (b.x - a.x) + (b.z - a.z) * (b.z - a.z)))))
        (p.z - (a.z + (b.z - a.z) *
          clamp01 (((p.x - a.x) * (b.x - a.x) + (p.z - a.z) * (b.z - a.z)) /
            ((b.x - a.x) * (b.x - a.x) + (b.z - a.z) * (b.z - a.z))))) =
        Real.sqrt (((b.x - a.x) * (b.x - a.x) + (b.z - a.z) * (b.z - a.z)) *
          clamp01 (((p.x - a.x) * (b.x - a.x) + (p.z - a.z) * (b.z - a.z)) /
            ((b.x - a.x) * (b.x - a.x) + (b.z - a.z) * (b.z - a.z))) ^ 2 -
          2 * ((p.x - a.x) * (b.x - a.x) + (p.z - a.z) * (b.z - a.z)) *
          clamp01 (((p.x - a.x) * (b.x - a.x) + (p.z - a.z) * (b.z - a.z)) /
            ((b.x - a.x) * (b.x - a.x) + (b.z - a.z) * (b.z - a.z))) +
          ((p.x - a.x) * (p.x - a.x) + (p.z - a.z) * (p.z - a.z))) := by
      unfold mathHypot
      congr 1
      ring
    rw [hdist]
    exact Real.sqrt_le_sqrt
      (quad_clamp_min _ _ _ hD s (Set.mem_Icc.mp hs).1 (Set.mem_Icc.mp hs).2)

end MapTools

namespace MapTools

theorem C5_closest_point_on_segment_witness :
    ((1e-12 : ℝ) <
      ((⟨10, 0⟩ : WorldPoint).x - (⟨0, 0⟩ : WorldPoint).x) *
        ((⟨10, 0⟩ : WorldPoint).x - (⟨0, 0⟩ : WorldPoint).x) +
      ((⟨10, 0⟩ : WorldPoint).z - (⟨0, 0⟩ : WorldPoint).z) *
        ((⟨10, 0⟩ : WorldPoint).z - (⟨0, 0⟩ : WorldPoint).z)) ∧
    ((1 / 2 : ℝ) ∈ Set.Icc (0 : ℝ) 1) ∧
    (closestPointOnSegment ⟨5, 5⟩ ⟨0, 0⟩ ⟨10, 0⟩).t ∈ Set.Icc (0 : ℝ) 1 ∧
    (closestPointOnSegment ⟨5, 5⟩ ⟨0, 0⟩ ⟨10, 0⟩).point =
      lerpSeg ⟨0, 0⟩ ⟨10, 0⟩ (closestPointOnSegment ⟨5, 5⟩ ⟨0, 0⟩ ⟨10, 0⟩).t ∧
    (closestPointOnSegment ⟨5, 5⟩ ⟨0, 0⟩ ⟨10, 0⟩).dist ≤
      euclidDist ⟨5, 5⟩ (lerpSeg ⟨0, 0⟩ ⟨10, 0⟩ (1 / 2)) := by
  have hden : (1e-12 : ℝ) <
      ((⟨10, 0⟩ : WorldPoint).x - (⟨0, 0⟩ : WorldPoint).x) *
        ((⟨10, 0⟩ : WorldPoint).x - (⟨0, 0⟩ : WorldPoint).x) +
      ((⟨10, 0⟩ : WorldPoint).z - (⟨0, 0⟩ : WorldPoint).z) *
        ((⟨10, 0⟩ : WorldPoint).z - (⟨0, 0⟩ : WorldPoint).z) := by norm_num
  have hhalf : (1 / 2 : ℝ) ∈ Set.Icc (0 : ℝ) 1 := Set.mem_Icc.mpr ⟨by norm_num, by norm_num⟩
  have h := (C5_closest_point_on_segment ⟨5, 5⟩ ⟨0, 0⟩ ⟨10, 0⟩).2 hden
  exact ⟨hden, hhalf, h.1, h.2.1, h.2.2.2 (1 / 2) hhalf⟩

end MapTools

namespace MapTools

theorem foldBest_go : ∀ (l : List RingHit) (acc : Option RingHit) (h : RingHit),
    l.foldl (fun best cand =>
      match best with
      | none => some cand
      | some b => if cand.dist < b.dist then some cand else some b) acc = some h →
    (∀ c ∈ l, h.dist ≤ c.dist) ∧ (∀ b, acc = some b → h.dist ≤ b.dist) ∧
      (h ∈ l ∨ acc = some h) := by
  intro l
  induction l with
  | nil =>
    intro acc h hf
    simp only [List.foldl_nil] at hf
    refine ⟨by simp, ?_, Or.inr hf⟩
    intro b hb
    rw [hf] at hb
    injection hb with hb
    rw [hb]
  | cons c rest ih =>
    intro acc h hf
    simp only [List.foldl_cons] at hf
    obtain ⟨h1, h2, h3⟩ := ih _ h hf
    rcases acc with _ | b
    · refine ⟨?_, ?_, ?_⟩
      · intro c' hc'
        rcases List.mem_cons.mp hc' with rfl | hmem
        · exact h2 c' rfl
        · exact h1 c' hmem
      · intro b hb
        exact absurd hb (by simp)
      · rcases h3 with hm | he
        · exact Or.inl (List.mem_cons_of_mem _ hm)
        · injection he with he
          exact Or.inl (he ▸ List.mem_cons_self _ _)
    · have h2' : ∀ b1 : RingHit, (if c.dist < b.dist then some c else some b) = some b1 →
          h.dist ≤ b1.dist := h2
      have h3' : h ∈ rest ∨ (if c.dist < b.dist then some c else some b) = some h := h3
      by_cases hlt : c.dist < b.dist
      · rw [if_pos hlt] at h2' h3'
        refine ⟨?_, ?_, ?_⟩
        · intro c' hc'
          rcases List.mem_cons.mp hc' with rfl | hmem
          · exact h2' c' rfl
          · exact h1 c' hmem
        · intro b1 hb1
          injection hb1 with hb1
          subst hb1
          exact le_trans (h2' c rfl) hlt.le
        · rcases h3' with hm | he
          · exact Or.inl (List.mem_cons_of_mem _ hm)
          · injection he with he
            exact Or.inl (he ▸ List.mem_cons_self _ _)
      · rw [if_neg hlt] at h2' h3'
        refine ⟨?_, ?_, ?_⟩
        · intro c' hc'
          rcases List.mem_cons.mp hc' with rfl | hmem
          · exact le_trans (h2' b rfl) (not_lt.mp hlt)
          · exact h1 c' hmem
        · intro b1 hb1
          injection hb1 with hb1
          subst hb1
          exact h2' _ rfl
        · rcases h3' with hm | he
          · exact Or.inl (List.mem_cons_of_mem _ hm)
          · exact Or.inr he

theorem closestPointOnRings_spec (p : WorldPoint) (geom : GeometryRings) (h : RingHit) :
    closestPointOnRings p geom = some h →
    h ∈ ringSegCandidates p geom ∧ ∀ c ∈ ringSegCandidates p geom, h.dist ≤ c.dist := by
  intro hf
  obtain ⟨h1, h2, h3⟩ := foldBest_go _ none h hf
  rcases h3 with hm | he
  · exact ⟨hm, h1⟩
  · simp at he

end MapTools

namespace MapTools

theorem ringSegCandidates_single_length (p : WorldPoint) (ring : List WorldPoint)
    (closed : Bool) (h2 : 2 ≤ ring.length) :
    (ringSegCandidates p ⟨[ring], [closed]⟩).length =
      if closed then ring.length else ring.length - 1 := by
  have hn : ¬ ring.length < 2 := not_lt.mpr h2
  simp [ringSegCandidates, List.enum, List.enumFrom, hn]

theorem ringSegCandidates_single_get (p : WorldPoint) (ring : List WorldPoint)
    (closed : Bool) (i : ℕ) (h2 : 2 ≤ ring.length)
    (hi : i < if closed then ring.length else ring.length - 1) :
    (ringSegCandidates p ⟨[ring], [closed]⟩).get? i = some
      ⟨(closestPointOnSegment p (ring.getD i ⟨0, 0⟩)
          (ring.getD ((i + 1) % ring.length) ⟨0, 0⟩)).point,
       (closestPointOnSegment p (ring.getD i ⟨0, 0⟩)
          (ring.getD ((i + 1) % ring.length) ⟨0, 0⟩)).dist,
       0, i,
       (closestPointOnSegment p (ring.getD i ⟨0, 0⟩)
          (ring.getD ((i + 1) % ring.length) ⟨0, 0⟩)).t⟩ := by
  have hn : ¬ ring.length < 2 := not_lt.mpr h2
  simp only [ringSegCandidates, List.enum, List.enumFrom, hn, if_false, List.foldl_cons,
    List.foldl_nil, List.nil_append, List.get?_eq_getElem?, List.getElem?_map,
    List.getD_cons_zero]
  rw [List.getElem?_range hi]
  rfl

theorem C6_scenario_seg :
    closestPointOnSegment ⟨5, 5⟩ ⟨0, 0⟩ ⟨10, 0⟩ = ⟨⟨5, 0⟩, 1 / 2, 5⟩ := by
  norm_num [closestPointOnSegment, clamp01, mathHypot]
  exact RMP.sqrt_num 25 5 (by norm_num) (by norm_num)

end MapTools

namespace MapTools

theorem C6_scenario_rings :
    closestPointOnRings ⟨5, 5⟩ demoRing = some ⟨⟨5, 0⟩, 5, 0, 0, 1 / 2⟩ := by
  have hc : ringSegCandidates ⟨5, 5⟩ demoRing = [⟨⟨5, 0⟩, 5, 0, 0, 1 / 2⟩] := by
    simp only [ringSegCandidates, demoRing, List.enum, List.enumFrom, List.foldl_cons,
      List.foldl_nil, List.nil_append, List.getD_cons_zero]
    norm_num
    rw [show List.range 1 = [0] from rfl]
    norm_num [C6_scenario_seg, List.getD]
  rw [closestPointOnRings, hc]
  simp [foldBest]

/-- C6: `closestPointOnRings` returns the global minimum-distance projection
over exactly the scanned segments — an open ring of `n ≥ 2` points
contributes `n - 1` segments, a closed ring `n` (including the wrap-around),
candidate `i` being the projection onto `(ring[i], ring[(i+1) mod n])` — and
on the open 2-point ring `[(0,0),(10,0)]` the query `(5,5)` yields point
`(5,0)` at distance 5 (ring 0, segment 0, `t = 1/2`). -/
theorem C6_closest_point_on_rings :
    (∀ (p : WorldPoint) (geom : GeometryRings) (hit : RingHit),
      closestPointOnRings p geom = some hit →
      hit ∈ ringSegCandidates p geom ∧ ∀ c ∈ ringSegCandidates p geom, hit.dist ≤ c.dist) ∧
    (∀ (p : WorldPoint) (ring : List WorldPoint) (closed : Bool), 2 ≤ ring.length →
      (ringSegCandidates p ⟨[ring], [closed]⟩).length =
        if closed then ring.length else ring.length - 1) ∧
    (∀ (p : WorldPoint) (ring : List WorldPoint) (closed : Bool) (i : ℕ),
      2 ≤ ring.length → (i < if closed then ring.length else ring.length - 1) →
      (ringSegCandidates p ⟨[ring], [closed]⟩).get? i = some
        ⟨(closestPointOnSegment p (ring.getD i ⟨0, 0⟩)
            (ring.getD ((i + 1) % ring.length) ⟨0, 0⟩)).point,
         (closestPointOnSegment p (ring.getD i ⟨0, 0⟩)
            (ring.getD ((i + 1) % ring.length) ⟨0, 0⟩)).dist,
         0, i,
         (closestPointOnSegment p (ring.getD i ⟨0, 0⟩)
            (ring.getD ((i + 1) % ring.length) ⟨0, 0⟩)).t⟩) ∧
    closestPointOnRings ⟨5, 5⟩ demoRing = some ⟨⟨5, 0⟩, 5, 0, 0, 1 / 2⟩ :=
  ⟨closestPointOnRings_spec,
   fun p ring closed h2 => ringSegCandidates_single_length p ring closed h2,
   fun p ring closed i h2 hi => ringSegCandidates_single_get p ring closed i h2 hi,
   C6_scenario_rings⟩

/-- C6 witness: the theorem applied on the scenario ring — the returned hit
is the scanned minimal candidate, and the open 2-point ring scans exactly
one segment. -/
theorem C6_closest_point_on_rings_witness :
    closestPointOnRings ⟨5, 5⟩ demoRing = some ⟨⟨5, 0⟩, 5, 0, 0, 1 / 2⟩ ∧
    (⟨⟨5, 0⟩, 5, 0, 0, 1 / 2⟩ : RingHit) ∈ ringSegCandidates ⟨5, 5⟩ demoRing ∧
    (ringSegCandidates ⟨5, 5⟩ ⟨[[⟨0, 0⟩, ⟨10, 0⟩]], [false]⟩).length = 1 := by
  have h := C6_closest_point_on_rings
  have hm := h.1 ⟨5, 5⟩ demoRing _ h.2.2.2
  refine ⟨h.2.2.2, hm.1, ?_⟩
  have hl := h.2.1 ⟨5, 5⟩ [⟨0, 0⟩, ⟨10, 0⟩] false (le_refl 2)
  simpa using hl

end MapTools

namespace MapTools

/-- C7: with snapping enabled and a chosen ring target, when the nearest
ring distance exceeds `SNAP_MAX_DIST` (20) the click is blocked with no
corrected point; at or within the threshold the result is the projected
nearest ring point, not blocked. -/
theorem C7_ring_snap_threshold (p : WorldPoint) (geom : GeometryRings) (hit : RingHit)
    (hbest : closestPointOnRings p geom = some hit) :
    (SNAP_MAX_DIST < hit.dist →
      applySnap true (some geom) p = { point := none, blocked := true }) ∧
    (hit.dist ≤ SNAP_MAX_DIST →
      applySnap true (some geom) p = { point := some hit.point, blocked := false }) := by
  constructor
  · intro hgt
    simp [applySnap, hbest, hgt]
  · intro hle
    simp [applySnap, hbest, not_lt.mpr hle]

theorem demoRing_closest (p : WorldPoint) :
    closestPointOnRings p demoRing = some
      ⟨(closestPointOnSegment p ⟨0, 0⟩ ⟨10, 0⟩).point,
       (closestPointOnSegment p ⟨0, 0⟩ ⟨10, 0⟩).dist, 0, 0,
       (closestPointOnSegment p ⟨0, 0⟩ ⟨10, 0⟩).t⟩ := by
  have hc : ringSegCandidates p demoRing =
      [⟨(closestPointOnSegment p ⟨0, 0⟩ ⟨10, 0⟩).point,
        (closestPointOnSegment p ⟨0, 0⟩ ⟨10, 0⟩).dist, 0, 0,
        (closestPointOnSegment p ⟨0, 0⟩ ⟨10, 0⟩).t⟩] := by
    simp only [ringSegCandidates, demoRing, List.enum, List.enumFrom, List.foldl_cons,
      List.foldl_nil, List.nil_append, List.getD_cons_zero]
    norm_num
    rw [show List.range 1 = [0] from rfl]
    norm_num [List.getD]
  rw [closestPointOnRings, hc]
  simp [foldBest]

theorem C7_seg_21 : closestPointOnSegment ⟨5, 21⟩ ⟨0, 0⟩ ⟨10, 0⟩ = ⟨⟨5, 0⟩, 1 / 2, 21⟩ := by
  norm_num [closestPointOnSegment, clamp01, mathHypot]
  exact RMP.sqrt_num 441 21 (by norm_num) (by norm_num)

theorem C7_seg_19 : closestPointOnSegment ⟨5, 19⟩ ⟨0, 0⟩ ⟨10, 0⟩ = ⟨⟨5, 0⟩, 1 / 2, 19⟩ := by
  norm_num [closestPointOnSegment, clamp01, mathHypot]
  exact RMP.sqrt_num 361 19 (by norm_num) (by norm_num)

/-- C7 witness: on the open ring `[(0,0),(10,0)]` the point `(5,21)` (true
nearest distance 21 = threshold + 1) is blocked and `(5,19)` (distance 19 =
threshold - 1) snaps to `(5,0)`. -/
theorem C7_ring_snap_threshold_witness :
    closestPointOnRings ⟨5, 21⟩ demoRing = some ⟨⟨5, 0⟩, 21, 0, 0, 1 / 2⟩ ∧
    SNAP_MAX_DIST < (21 : ℝ) ∧
    applySnap true (some demoRing) ⟨5, 21⟩ = { point := none, blocked := true } ∧
    closestPointOnRings ⟨5, 19⟩ demoRing = some ⟨⟨5, 0⟩, 19, 0, 0, 1 / 2⟩ ∧
    (19 : ℝ) ≤ SNAP_MAX_DIST ∧
    applySnap true (some demoRing) ⟨5, 19⟩ = { point := some ⟨5, 0⟩, blocked := false } := by
  have h21 : closestPointOnRings ⟨5, 21⟩ demoRing = some ⟨⟨5, 0⟩, 21, 0, 0, 1 / 2⟩ := by
    rw [demoRing_closest ⟨5, 21⟩, C7_seg_21]
  have h19 : closestPointOnRings ⟨5, 19⟩ demoRing = some ⟨⟨5, 0⟩, 19, 0, 0, 1 / 2⟩ := by
    rw [demoRing_closest ⟨5, 19⟩, C7_seg_19]
  have hgt : SNAP_MAX_DIST < (21 : ℝ) := by norm_num [SNAP_MAX_DIST]
  have hle : (19 : ℝ) ≤ SNAP_MAX_DIST := by norm_num [SNAP_MAX_DIST]
  refine ⟨h21, hgt, ?_, h19, hle, ?_⟩
  · exact (C7_ring_snap_threshold ⟨5, 21⟩ demoRing _ h21).1 hgt
  · exact (C7_ring_snap_threshold ⟨5, 19⟩ demoRing _ h19).2 hle

end MapTools

namespace MapTools

theorem mem_ringSegCandidates_single (p : WorldPoint) (ring : List WorldPoint)
    (closed : Bool) (hit : RingHit)
    (hmem : hit ∈ ringSegCandidates p ⟨[ring], [closed]⟩) :
    hit.segIndex < (if closed then ring.length else ring.length - 1) := by
  by_cases h2 : ring.length < 2
  · simp [ringSegCandidates, List.enum, List.enumFrom, h2] at hmem
  · simp only [ringSegCandidates, List.enum, List.enumFrom, List.foldl_cons,
      List.foldl_nil, List.nil_append, List.getD_cons_zero, h2, if_false,
      List.mem_map, List.mem_range] at hmem
    obtain ⟨i, hi, rfl⟩ := hmem
    simpa using hi

theorem insert_get_at (l : List WorldPoint) (pt : WorldPoint) (idx : ℕ)
    (h : idx ≤ l.length) :
    (l.take idx ++ [pt] ++ l.drop idx).get? idx = some pt := by
  have h1 : (l.take idx).length = idx := by
    rw [List.length_take]
    omega
  rw [List.get?_eq_getElem?, List.append_assoc, List.getElem?_append_right (by omega), h1]
  simp

end MapTools

namespace MapTools

/-- C9: in control-point add mode, a click whose nearest-segment distance
exceeds `SNAP_MAX_DIST` inserts nothing (the stored coordinates are
unchanged); within the threshold the projected point is spliced in
immediately after the best segment's start index (`segIndex + 1`), and a
closed-ring best on the final wrap-around segment appends at the end of the
point list; the final conjunct fixes what "inserted at index `idx`" means:
the spliced list holds the new point at position `idx`. -/
theorem C9_insertion (mode : String) (coords : List WorldPoint) (w : WorldPoint)
    (best : RingHit)
    (hbest : closestPointOnRings w
      (normalizeRingsForPolygonLike coords (mode == "polygon")) = some best) :
    (SNAP_MAX_DIST < best.dist → insertControlPoint mode coords w = none) ∧
    (mode = "polyline" → best.dist ≤ SNAP_MAX_DIST →
      2 ≤ ((normalizeRingsForPolygonLike coords false).rings.headD []).length →
      insertControlPoint mode coords w = some
        (((normalizeRingsForPolygonLike coords false).rings.headD []).take (best.segIndex + 1) ++
          [best.point] ++
          ((normalizeRingsForPolygonLike coords false).rings.headD []).drop (best.segIndex + 1))) ∧
    (mode = "polygon" → best.dist ≤ SNAP_MAX_DIST →
      2 ≤ ((normalizeRingsForPolygonLike coords true).rings.headD []).length →
      (best.segIndex < ((normalizeRingsForPolygonLike coords true).rings.headD []).length - 1 →
        insertControlPoint mode coords w = some
          (((normalizeRingsForPolygonLike coords true).rings.headD []).take (best.segIndex + 1) ++
            [best.point] ++
            ((normalizeRingsForPolygonLike coords true).rings.headD []).drop (best.segIndex + 1))) ∧
      (((normalizeRingsForPolygonLike coords true).rings.headD []).length - 1 ≤ best.segIndex →
        insertControlPoint mode coords w = some
          (((normalizeRingsForPolygonLike coords true).rings.headD []) ++ [best.point]))) ∧
    (∀ (l : List WorldPoint) (pt : WorldPoint) (idx : ℕ), idx ≤ l.length →
      (l.take idx ++ [pt] ++ l.drop idx).get? idx = some pt) := by
  refine ⟨?_, ?_, ?_, insert_get_at⟩
  · intro hgt
    simp only [insertControlPoint]
    split
    · rfl
    · simp only [hbest]
      rw [if_pos hgt]
  · intro hm hle h2
    subst hm
    have hb : (("polyline" : String) == "polygon") = false := rfl
    rw [hb] at hbest
    have hcand := (closestPointOnRings_spec _ _ _ hbest).1
    have hshape : normalizeRingsForPolygonLike coords false =
        ⟨[(normalizeRingsForPolygonLike coords false).rings.headD []], [false]⟩ := by
      simp [normalizeRingsForPolygonLike]
    rw [hshape] at hcand
    have hseg := mem_ringSegCandidates_single _ _ _ _ hcand
    simp only [Bool.false_eq_true, if_false] at hseg
    simp only [insertControlPoint, hb]
    rw [if_neg (by simp)]
    simp only [hbest]
    rw [if_neg (not_lt.mpr hle), if_neg (not_lt.mpr h2)]
    have hmin : min (best.segIndex + 1)
        ((normalizeRingsForPolygonLike coords false).rings.headD []).length =
        best.segIndex + 1 := by omega
    simp only [Bool.false_eq_true, if_false, hmin]
  · intro hm hle h2
    subst hm
    have hb : (("polygon" : String) == "polygon") = true := rfl
    rw [hb] at hbest
    have hcand := (closestPointOnRings_spec _ _ _ hbest).1
    have hshape : normalizeRingsForPolygonLike coords true =
        ⟨[(normalizeRingsForPolygonLike coords true).rings.headD []], [true]⟩ := by
      simp [normalizeRingsForPolygonLike]
    rw [hshape] at hcand
    have hseg := mem_ringSegCandidates_single _ _ _ _ hcand
    simp only [if_true] at hseg
    constructor
    · intro hlt
      simp only [insertControlPoint, hb]
      rw [if_neg (by simp)]
      simp only [hbest]
      rw [if_neg (not_lt.mpr hle), if_neg (not_lt.mpr h2)]
      simp only [if_true]
      rw [if_neg (not_le.mpr hlt)]
    · intro hge
      simp only [insertControlPoint, hb]
      rw [if_neg (by simp)]
      simp only [hbest]
      rw [if_neg (not_lt.mpr hle), if_neg (not_lt.mpr h2)]
      simp only [if_true]
      rw [if_pos hge, List.take_length, List.drop_length, List.append_nil]

end MapTools

namespace MapTools

theorem normalizeDemo :
    normalizeRingsForPolygonLike [⟨0, 0⟩, ⟨10, 0⟩] false = demoRing := by
  simp only [normalizeRingsForPolygonLike, demoRing]
  rw [if_neg]
  intro hc
  have h := hc.2
  simp only [samePoint] at h
  norm_num at h

/-- C9 witness: clicking `(5,5)` with target polyline `[(0,0),(10,0)]`
(nearest distance 5, segment 0) inserts the projected point `(5,0)` at
index 1. -/
theorem C9_insertion_witness :
    closestPointOnRings ⟨5, 5⟩
      (normalizeRingsForPolygonLike [⟨0, 0⟩, ⟨10, 0⟩] ("polyline" == "polygon")) =
      some ⟨⟨5, 0⟩, 5, 0, 0, 1 / 2⟩ ∧
    (5 : ℝ) ≤ SNAP_MAX_DIST ∧
    insertControlPoint "polyline" [⟨0, 0⟩, ⟨10, 0⟩] ⟨5, 5⟩ =
      some [⟨0, 0⟩, ⟨5, 0⟩, ⟨10, 0⟩] := by
  have hb : closestPointOnRings ⟨5, 5⟩
      (normalizeRingsForPolygonLike [⟨0, 0⟩, ⟨10, 0⟩] ("polyline" == "polygon")) =
      some ⟨⟨5, 0⟩, 5, 0, 0, 1 / 2⟩ := by
    rw [show (("polyline" : String) == "polygon") = false from rfl, normalizeDemo]
    exact C6_scenario_rings
  have hle : (5 : ℝ) ≤ SNAP_MAX_DIST := by norm_num [SNAP_MAX_DIST]
  refine ⟨hb, hle, ?_⟩
  have h := (C9_insertion "polyline" [⟨0, 0⟩, ⟨10, 0⟩] ⟨5, 5⟩ ⟨⟨5, 0⟩, 5, 0, 0, 1 / 2⟩ hb).2.1
    rfl hle (by rw [normalizeDemo]; exact le_refl 2)
  rw [normalizeDemo] at h
  simpa using h

end MapTools
